import Mathlib

/-!
Verification development for the Blaze2D batched 2D rendering engine
(src/Blaze2d.js).  The engine core — sprite/quad batcher, render state
stack, texture/atlas resource manager, and the GPU damage-number lane —
is shallowly embedded below.  JavaScript numbers are modelled as exact
rationals (ℚ); the ambient math library (Math.sin/cos/sqrt/exp, which in
JS are implementation-defined double approximations) is abstracted as an
explicit `MathImpl` record; GPU texture handles are natural-number ids;
JS `Map`s are association lists in insertion order (JS `Map` preserves
insertion order, and `set` on an existing key keeps its position);
GPU calls are recorded in an event log.  A JS exception is modelled with
`Except Unit`.
-/

namespace Blaze2d

/-- Ambient JS math library: `Math.sin`, `Math.cos`, `Math.sqrt`,
`Math.exp` as supplied by the runtime (doubles, hence approximations —
modelled as an arbitrary rational-valued implementation). -/
structure MathImpl where
  msin : ℚ → ℚ
  mcos : ℚ → ℚ
  msqrt : ℚ → ℚ
  mexp : ℚ → ℚ

/-- GPU texture handle (a `WebGLTexture`), identified by allocation id. -/
abbrev Tex := ℕ

/-- An RGBA color, the normalized `[r, g, b, a]` array form. -/
structure RGBA where
  r : ℚ
  g : ℚ
  b : ℚ
  a : ℚ
deriving DecidableEq, Repr

def whiteRGBA : RGBA := ⟨1, 1, 1, 1⟩

/-- Normalized atlas UV rectangle, as stored in `atlasCache`. -/
structure UVRect where
  u0 : ℚ
  v0 : ℚ
  u1 : ℚ
  v1 : ℚ
deriving DecidableEq, Repr

/-- The texture-info record produced by `getTexture`
(`{texture, uv?, width, height}`). -/
structure TexInfo where
  texture : Tex
  uv : Option UVRect
  width : ℚ
  height : ℚ
deriving DecidableEq, Repr

/-- Engine-observable state of a client image object (the engine writes
`_glTextureInfo` and `_needsUpdate` onto the image).  Pixel dimensions
are naturals, as for DOM images/canvases. -/
structure ImageObj where
  width : ℕ
  height : ℕ
  needsUpdate : Bool
  glTextureInfo : Option TexInfo
  disableAutoAtlas : Bool
deriving DecidableEq, Repr

/-- Reference to a drawable source passed to `getTexture`:
a client image (by identity id) or a raw `WebGLTexture`. -/
inductive ImgRef where
  | image (id : ℕ)
  | rawTex (t : Tex)
deriving DecidableEq, Repr

/-- Source argument of `drawTexture`/`_drawTextureDirect`: an image, a raw
`WebGLTexture`, or a `{texture, uv?}` info object. -/
inductive TexSource where
  | image (id : ℕ)
  | rawTex (t : Tex)
  | texInfo (ti : TexInfo)
deriving DecidableEq, Repr

/-- Result of `getTexture`: either a bare `WebGLTexture` or an info record. -/
inductive GetTexRet where
  | tex (t : Tex)
  | txinfo (ti : TexInfo)
deriving DecidableEq, Repr

/-- The texture a `GetTexRet` stands for (`info.texture ? info.texture : info`). -/
def GetTexRet.texOf : GetTexRet → Tex
  | .tex t => t
  | .txinfo ti => ti.texture

/-- Sprite-lane vertex: 9 scalars, as written by `addVertex`
(position, texcoord, coverage alpha, tint rgb, flash-flag-or-alpha). -/
structure Vertex where
  x : ℚ
  y : ℚ
  u : ℚ
  v : ℚ
  cov : ℚ
  r : ℚ
  g : ℚ
  b : ℚ
  ff : ℚ
deriving DecidableEq, Repr

/-- Damage-number-lane vertex: 17 scalars per vertex, as written by
`drawGPUDamageNumber`. -/
structure DNVertex where
  posOffX : ℚ
  posOffY : ℚ
  u : ℚ
  v : ℚ
  startX : ℚ
  startY : ℚ
  charOffX : ℚ
  charOffY : ℚ
  vx : ℚ
  vy : ℚ
  spawnTime : ℚ
  duration : ℚ
  scale : ℚ
  r : ℚ
  g : ℚ
  b : ℚ
  alpha : ℚ
deriving DecidableEq, Repr

/-- A glyph entry of the prebuilt bitmap font
(`bitmapFont.set(info.char, ...)`). -/
structure Glyph where
  texture : Tex
  padding : ℚ
  fontSize : ℚ
  width : ℚ
  height : ℚ
  renderWidth : ℚ
  renderHeight : ℚ
  u0 : ℚ
  v0 : ℚ
  u1 : ℚ
  v1 : ℚ
deriving DecidableEq, Repr

/-- Blend function as set by `_updateBlendMode`
(`gl.blendFunc` argument pair). -/
inductive BlendFn where
  | dstAlphaOneMinusSrcAlpha
  | oneOne
  | oneOneMinusSrcAlpha
deriving DecidableEq, Repr

/-- A value assignable to `fillStyle`/`strokeStyle`: a CSS color string or
a gradient object (identified by id; JS compares object identity). -/
inductive StyleVal where
  | str (s : String)
  | grad (id : ℕ)
deriving DecidableEq, Repr

/-- The resolved `fillStyleRGBA`/`strokeStyleRGBA` slot: a 4-float array
or a retained gradient reference. -/
inductive StyleRGBA where
  | solid (c : RGBA)
  | gradient (id : ℕ)
deriving DecidableEq, Repr

/-- A 2×3 affine matrix `[m0 m1 m2 m3 m4 m5]` (column-major 2D affine). -/
structure Mat2D where
  m0 : ℚ
  m1 : ℚ
  m2 : ℚ
  m3 : ℚ
  m4 : ℚ
  m5 : ℚ
deriving DecidableEq, Repr

/-- Render state snapshot (one entry of `stateStack`).  `lineCap` /
`lineJoin` are settable on a state but are not among the fields that
`_copyState` transfers, hence they are `Option`-valued with the getter
defaults applied at read time. -/
structure RState where
  matrix : Mat2D
  alpha : ℚ
  flash : ℚ
  fillStyle : StyleVal
  fillStyleRGBA : StyleRGBA
  strokeStyle : StyleVal
  strokeStyleRGBA : StyleRGBA
  lineWidth : ℚ
  font : String
  textAlign : String
  textBaseline : String
  globalCompositeOperation : String
  shadowBlur : ℚ
  shadowColor : String
  lineCap : Option String
  lineJoin : Option String
deriving DecidableEq, Repr

/-- One indexed triangle-list sprite draw (`gl.drawElements` in `flush`). -/
structure DrawCall where
  texture : Tex
  quadCount : ℕ
  indexCount : ℕ
  verts : List Vertex
  blend : BlendFn
deriving DecidableEq, Repr

/-- One damage-number draw (`gl.drawElements` in `flushDamageNumbers`). -/
structure DNDrawCall where
  texture : Tex
  quadCount : ℕ
  verts : List DNVertex
deriving DecidableEq, Repr

/-- A GPU submission recorded by the model. -/
inductive GpuEvent where
  | draw (d : DrawCall)
  | drawDN (d : DNDrawCall)
  | clearScreen
deriving DecidableEq, Repr

section MapHelpers

variable {β : Type}

/-- JS `Map.get` on an insertion-ordered association list. -/
def mapGet (m : List (ℕ × β)) (k : ℕ) : Option β :=
  (m.find? (fun p => p.1 = k)).map (fun p => p.2)

/-- JS `Map.set`: update in place if the key exists (keeping its
position), otherwise append. -/
def mapSet (m : List (ℕ × β)) (k : ℕ) (v : β) : List (ℕ × β) :=
  if (m.find? (fun p => p.1 = k)).isSome then
    m.map (fun p => if p.1 = k then (k, v) else p)
  else
    m ++ [(k, v)]

/-- JS `Map.delete`. -/
def mapDelete (m : List (ℕ × β)) (k : ℕ) : List (ℕ × β) :=
  m.filter (fun p => ¬ p.1 = k)

end MapHelpers

/-- The whole mutable engine instance (`Blaze2D` object), restricted to
the components the specification's core covers. -/
structure Engine where
  width : ℚ
  height : ℚ
  dpr : ℚ
  currentTime : ℚ
  cameraX : ℚ
  cameraY : ℚ
  whiteTexture : Tex
  atlasTexture : Tex
  maxBatchSize : ℕ
  maxTextureCacheSize : ℕ
  atlasSize : ℕ
  dnMaxBatchSize : ℕ
  batchCount : ℕ
  pendingVerts : List Vertex
  currentTexture : Option Tex
  dnBatchCount : ℕ
  dnPendingVerts : List DNVertex
  dnCurrentTexture : Option Tex
  gpu : List GpuEvent
  glBlend : BlendFn
  freed : List Tex
  nextTex : ℕ
  drawCallCount : ℕ
  triangleCount : ℕ
  stateStack : List RState
  statePool : List RState
  images : List (ℕ × ImageObj)
  textureCache : List (ℕ × Tex)
  textureUsage : List (ℕ × ℕ)
  atlasCache : List (ℕ × UVRect)
  atlasX : ℕ
  atlasY : ℕ
  atlasRowHeight : ℕ
  atlasWrites : List (ℤ × ℤ × ℕ)
  bitmapFont : List (Char × Glyph)
deriving DecidableEq, Repr

/-- The atlas padding constant (`this.atlasPadding = 2`). -/
def atlasPadding : ℕ := 2

/-- Look up an image object by identity; absent ids yield an inert
default (states reached by the engine only dereference present ids). -/
def getImg (e : Engine) (id : ℕ) : ImageObj :=
  (mapGet e.images id).getD ⟨0, 0, false, none, false⟩

/-- Write back the (mutated) image object. -/
def setImg (e : Engine) (id : ℕ) (img : ImageObj) : Engine :=
  { e with images := mapSet e.images id img }

/-! ### Color resolution (`_parseColor`) -/

/-- Value of one hex digit (invalid digits, which JS turns into `NaN`
via `parseInt`, are modelled as 0; no claim touches malformed colors). -/
def hexDigit (c : Char) : ℕ :=
  if '0' ≤ c ∧ c ≤ '9' then c.toNat - 48
  else if 'a' ≤ c ∧ c ≤ 'f' then c.toNat - 87
  else 0

/-- `parseInt(h[i]+h[j], 16) / 255`. -/
def hexPair (a b : Char) : ℚ :=
  ((hexDigit a * 16 + hexDigit b : ℕ) : ℚ) / 255

/-- Hex color body after `#`: 3-digit short form, else the 6-digit slices
(shorter malformed bodies, `NaN` in JS, are modelled as white). -/
def parseHex (h : List Char) : RGBA :=
  match h with
  | [c0, c1, c2] => ⟨hexPair c0 c0, hexPair c1 c1, hexPair c2 c2, 1⟩
  | c0 :: c1 :: c2 :: c3 :: c4 :: c5 :: _ => ⟨hexPair c0 c1, hexPair c2 c3, hexPair c4 c5, 1⟩
  | _ => whiteRGBA

/-- Accumulate decimal digits. -/
def digitsToNat : List Char → ℕ → ℕ
  | [], acc => acc
  | c :: cs, acc => digitsToNat cs (acc * 10 + (c.toNat - 48))

/-- JS `parseInt` on a component string (decimal): `none` models `NaN`. -/
def parseIntPrefix (s : List Char) : Option ℕ :=
  let s := s.dropWhile (fun c => c = ' ')
  let ds := s.takeWhile (fun c => '0' ≤ c ∧ c ≤ '9')
  if ds.isEmpty then none else some (digitsToNat ds 0)

/-- JS `parseFloat` on a component string (plain decimals only, which is
all the engine's callers produce): `none` models `NaN`. -/
def parseFloatPrefix (s : List Char) : Option ℚ :=
  let s := s.dropWhile (fun c => c = ' ')
  let ds := s.takeWhile (fun c => '0' ≤ c ∧ c ≤ '9')
  let rest := s.drop ds.length
  match rest with
  | '.' :: r =>
    let fs := r.takeWhile (fun c => '0' ≤ c ∧ c ≤ '9')
    if ds.isEmpty ∧ fs.isEmpty then none
    else some ((digitsToNat ds 0 : ℚ) + (digitsToNat fs 0 : ℚ) / ((10 : ℚ) ^ fs.length))
  | _ => if ds.isEmpty then none else some ((digitsToNat ds 0 : ℚ))

/-- The `rgb(...)` / `rgba(...)` branch of `_parseColor`. -/
def parseRGBFunc (n : String) : RGBA :=
  let cs := n.toList
  match cs.indexOf? '(', cs.indexOf? ')' with
  | some si, some ei =>
    if si + 1 < ei then
      let inner := (cs.drop (si + 1)).take (ei - (si + 1))
      let parts := (String.mk inner).splitOn ","
      let part := fun (i : ℕ) => (parts.getD i "").toList
      let r := (parseIntPrefix (part 0)).getD 0
      let g := (parseIntPrefix (part 1)).getD 0
      let b := (parseIntPrefix (part 2)).getD 0
      let a := if 3 < parts.length ∧ parts.getD 3 "" ≠ "" then (parseFloatPrefix (part 3)).getD 1 else 1
      ⟨(r : ℚ) / 255, (g : ℚ) / 255, (b : ℚ) / 255, a⟩
    else whiteRGBA
  | _, _ => whiteRGBA

/-- `_parseColor` on a string (the color cache memoizes this pure
computation, so values are unaffected by the cache). -/
def parseColor (color : String) : RGBA :=
  if color = "" then whiteRGBA
  else
    let n := color.toLower.trim
    if n = "white" ∨ n = "#fff" ∨ n = "#ffffff" then whiteRGBA
    else if n = "black" ∨ n = "#000" ∨ n = "#000000" then ⟨0, 0, 0, 1⟩
    else if n = "transparent" ∨ n = "rgba(0,0,0,0)" then ⟨0, 0, 0, 0⟩
    else if n.startsWith "#" then parseHex (n.toList.drop 1)
    else if n.startsWith "rgb" then parseRGBFunc n
    else whiteRGBA

/-- A dynamically typed color argument (string, array, or gradient). -/
inductive ColorV where
  | s (str : String)
  | arr (c : RGBA)
  | grad (id : ℕ)
deriving DecidableEq, Repr

/-- The call-site pattern
`typeof color === 'string' ? _parseColor(color) : (Array.isArray(color) ? color : WHITE)`. -/
def resolveColorV : ColorV → RGBA
  | .s str => parseColor str
  | .arr c => c
  | .grad _ => whiteRGBA

/-! ### Render state stack -/

/-- `_createDefaultState()`. -/
def defaultState : RState :=
  { matrix := ⟨1, 0, 0, 1, 0, 0⟩, alpha := 1, flash := 0,
    fillStyle := .str "#ffffff", fillStyleRGBA := .solid whiteRGBA,
    strokeStyle := .str "#000000", strokeStyleRGBA := .solid ⟨0, 0, 0, 1⟩,
    lineWidth := 1, font := "20px Arial",
    textAlign := "left", textBaseline := "alphabetic",
    globalCompositeOperation := "source-over",
    shadowBlur := 0, shadowColor := "transparent",
    lineCap := none, lineJoin := none }

/-- `_copyState(from, to)`: transfers every style/transform field onto the
destination (value-level; the source's array-reuse only affects object
identity).  `lineCap`/`lineJoin` are not transferred, exactly as in the
source. -/
def copyState (src dst : RState) : RState :=
  { dst with
    matrix := src.matrix, alpha := src.alpha, flash := src.flash,
    fillStyle := src.fillStyle, fillStyleRGBA := src.fillStyleRGBA,
    strokeStyle := src.strokeStyle, strokeStyleRGBA := src.strokeStyleRGBA,
    lineWidth := src.lineWidth, font := src.font,
    textAlign := src.textAlign, textBaseline := src.textBaseline,
    globalCompositeOperation := src.globalCompositeOperation,
    shadowBlur := src.shadowBlur, shadowColor := src.shadowColor }

/-- The current (top-of-stack) state, `this._state`.  The stack is never
empty in reachable engines; the default is a junk totalization. -/
def topState (e : Engine) : RState :=
  e.stateStack.headD defaultState

/-- Apply a mutation to the top state. -/
def modifyTop (e : Engine) (f : RState → RState) : Engine :=
  { e with stateStack := e.stateStack.modifyHead f }

/-- `save()`: `statePool.pop() || _createDefaultState()`, `_copyState`,
push.  The pool is LIFO (JS array `pop`/`push` at the end; modelled at
the list head). -/
def save (e : Engine) : Engine :=
  let current := topState e
  let next := e.statePool.headD defaultState
  { e with
    stateStack := copyState current next :: e.stateStack,
    statePool := e.statePool.tail }

/-- Getter `globalCompositeOperation` (falsy field defaults to
`source-over`). -/
def gcoGet (e : Engine) : String :=
  let m := (topState e).globalCompositeOperation
  if m = "" then "source-over" else m

/-- The blend function `_updateBlendMode` selects for a composite mode. -/
def blendOf (mode : String) : BlendFn :=
  if mode = "source-atop" then .dstAlphaOneMinusSrcAlpha
  else if mode = "lighter" ∨ mode = "screen" ∨ mode = "additive" then .oneOne
  else .oneOneMinusSrcAlpha

/-- `_updateBlendMode()`. -/
def updateBlendMode (e : Engine) : Engine :=
  { e with glBlend := blendOf (gcoGet e) }

/-! ### Sprite batcher core -/

/-- `flush()`: no-op on an empty queue; otherwise submit one indexed
triangle-list draw over the written vertex range and reset the batch. -/
def flush (e : Engine) : Engine :=
  if e.batchCount = 0 then e
  else
    { e with
      gpu := e.gpu ++ [.draw { texture := e.currentTexture.getD e.whiteTexture,
                               quadCount := e.batchCount,
                               indexCount := e.batchCount * 6,
                               verts := e.pendingVerts,
                               blend := e.glBlend }],
      drawCallCount := e.drawCallCount + 1,
      triangleCount := e.triangleCount + e.batchCount * 2,
      batchCount := 0, pendingVerts := [], currentTexture := none }

/-- `restore()`: no-op at the root; otherwise pop into the pool, and
flush + update blending if the composite mode changed. -/
def restore (e : Engine) : Engine :=
  if e.stateStack.length ≤ 1 then e
  else
    let oldMode := gcoGet e
    let discarded := topState e
    let e1 := { e with
      stateStack := e.stateStack.tail,
      statePool := discarded :: e.statePool }
    if oldMode ≠ gcoGet e1 then updateBlendMode (flush e1) else e1

/-! ### Style setters -/

/-- Setter `fillStyle`: no-op on an identical value; a gradient object is
retained as-is, a string is parsed into the RGBA slot. -/
def setFillStyle (e : Engine) (v : StyleVal) : Engine :=
  if (topState e).fillStyle = v then e
  else
    match v with
    | .grad g => modifyTop e (fun s => { s with fillStyle := v, fillStyleRGBA := .gradient g })
    | .str str =>
      let rgba := parseColor str
      modifyTop e (fun s => { s with fillStyle := v, fillStyleRGBA := .solid rgba })

/-- Setter `strokeStyle`: no special object branch — `_parseColor` on a
gradient object (not a string, not an array) yields white. -/
def setStrokeStyle (e : Engine) (v : StyleVal) : Engine :=
  if (topState e).strokeStyle = v then e
  else
    let rgba := match v with
      | .str str => parseColor str
      | .grad _ => whiteRGBA
    modifyTop e (fun s => { s with strokeStyle := v, strokeStyleRGBA := .solid rgba })

def setGlobalAlpha (e : Engine) (v : ℚ) : Engine :=
  modifyTop e (fun s => { s with alpha := v })

def setFlash (e : Engine) (v : Bool) : Engine :=
  modifyTop e (fun s => { s with flash := if v then 1 else 0 })

def setLineWidth (e : Engine) (v : ℚ) : Engine :=
  modifyTop e (fun s => { s with lineWidth := v })

def setShadowBlur (e : Engine) (v : ℚ) : Engine :=
  modifyTop e (fun s => { s with shadowBlur := v })

def setShadowColor (e : Engine) (v : String) : Engine :=
  modifyTop e (fun s => { s with shadowColor := v })

def setFont (e : Engine) (v : String) : Engine :=
  modifyTop e (fun s => { s with font := v })

def setTextAlign (e : Engine) (v : String) : Engine :=
  modifyTop e (fun s => { s with textAlign := v })

def setTextBaseline (e : Engine) (v : String) : Engine :=
  modifyTop e (fun s => { s with textBaseline := v })

def setLineCap (e : Engine) (v : String) : Engine :=
  modifyTop e (fun s => { s with lineCap := some v })

def setLineJoin (e : Engine) (v : String) : Engine :=
  modifyTop e (fun s => { s with lineJoin := some v })

/-- Setter `globalCompositeOperation`: no-op on the same value; otherwise
flush the sprite batcher *before* recording the new mode and updating the
blend function. -/
def setGlobalCompositeOperation (e : Engine) (v : String) : Engine :=
  if (topState e).globalCompositeOperation = v then e
  else
    let e1 := flush e
    let e2 := modifyTop e1 (fun s => { s with globalCompositeOperation := v })
    updateBlendMode e2

/-! ### Transform operations -/

def translateOp (e : Engine) (x y : ℚ) : Engine :=
  modifyTop e (fun s =>
    let m := s.matrix
    { s with matrix := { m with
        m4 := m.m4 + (m.m0 * x + m.m2 * y),
        m5 := m.m5 + (m.m1 * x + m.m3 * y) } })

def scaleOp (e : Engine) (sx sy : ℚ) : Engine :=
  modifyTop e (fun s =>
    let m := s.matrix
    { s with matrix := { m with
        m0 := m.m0 * sx, m1 := m.m1 * sx,
        m2 := m.m2 * sy, m3 := m.m3 * sy } })

def rotateOp (M : MathImpl) (e : Engine) (angle : ℚ) : Engine :=
  modifyTop e (fun s =>
    let m := s.matrix
    let c := M.mcos angle
    let sn := M.msin angle
    { s with matrix := ⟨m.m0 * c + m.m2 * sn, m.m1 * c + m.m3 * sn,
                        m.m0 * (-sn) + m.m2 * c, m.m1 * (-sn) + m.m3 * c,
                        m.m4, m.m5⟩ })

def setTransformOp (e : Engine) (a b c d tx ty : ℚ) : Engine :=
  modifyTop e (fun s => { s with matrix := ⟨a, b, c, d, tx, ty⟩ })

/-! ### Quad emission -/

/-- `addVertex(offset, x, y, u, v, a, rgba)` as a pure vertex value. -/
def addVertex (x y u v a : ℚ) (rgba : RGBA) : Vertex :=
  let r3 := rgba.a
  let isFlash := 5 < r3
  let cA := if isFlash then 1 else (if 1 < r3 then 1 else r3)
  let ca := a * cA
  { x := x, y := y, u := u, v := v, cov := ca,
    r := rgba.r, g := rgba.g, b := rgba.b,
    ff := if isFlash then 2 else (if 1 < ca then 1 else ca) }

/-- Write four vertices at the current arena offset (`batchCount * 36`,
which is exactly the end of the pending range) and count one quad. -/
def pushQuad (e : Engine) (v0 v1 v2 v3 : Vertex) : Engine :=
  { e with
    pendingVerts := e.pendingVerts ++ [v0, v1, v2, v3],
    batchCount := e.batchCount + 1 }

/-- The shared texture-change/capacity guard of
`drawImage`/`drawTexture`/`drawSpriteFast`/`_drawLine`: flush a non-empty
queue on texture change or full batch, then bind. -/
def bindTextureFor (e : Engine) (t : Tex) : Engine :=
  if e.currentTexture ≠ some t ∨ e.maxBatchSize ≤ e.batchCount then
    let e1 := if 0 < e.batchCount then flush e else e
    { e1 with currentTexture := some t }
  else e

/-- `_drawRect`: binds the white texture (flushing unconditionally inside
the guard — equivalent, since `flush` no-ops on empty) and enqueues one
transformed quad. -/
def drawRectRaw (e : Engine) (x y w h : ℚ) (rgba : RGBA) (alpha : ℚ) : Engine :=
  let e :=
    if e.currentTexture ≠ some e.whiteTexture ∨ e.maxBatchSize ≤ e.batchCount then
      { flush e with currentTexture := some e.whiteTexture }
    else e
  let m := (topState e).matrix
  let x1 := x + w
  let y1 := y + h
  pushQuad e
    (addVertex (m.m0 * x + m.m2 * y + m.m4) (m.m1 * x + m.m3 * y + m.m5) 0 0 alpha rgba)
    (addVertex (m.m0 * x1 + m.m2 * y + m.m4) (m.m1 * x1 + m.m3 * y + m.m5) 1 0 alpha rgba)
    (addVertex (m.m0 * x1 + m.m2 * y1 + m.m4) (m.m1 * x1 + m.m3 * y1 + m.m5) 1 1 alpha rgba)
    (addVertex (m.m0 * x + m.m2 * y1 + m.m4) (m.m1 * x + m.m3 * y1 + m.m5) 0 1 alpha rgba)

/-- `_drawLine`: binds white, then silently drops zero-length segments
(`len ≤ 0`; the JS `Math.sqrt` of the squared length) before computing
the oriented quad. -/
def drawLineRaw (M : MathImpl) (e : Engine) (x1 y1 x2 y2 width : ℚ) (rgba : RGBA)
    (alpha : ℚ) (m : Mat2D) : Engine :=
  let e := bindTextureFor e e.whiteTexture
  let dx := x2 - x1
  let dy := y2 - y1
  let len := M.msqrt (dx * dx + dy * dy)
  if len ≤ 0 then e
  else
    let nx := -dy / len * (width / 2)
    let ny := dx / len * (width / 2)
    pushQuad e
      (addVertex (m.m0 * (x1 + nx) + m.m2 * (y1 + ny) + m.m4) (m.m1 * (x1 + nx) + m.m3 * (y1 + ny) + m.m5) 0 0 alpha rgba)
      (addVertex (m.m0 * (x2 + nx) + m.m2 * (y2 + ny) + m.m4) (m.m1 * (x2 + nx) + m.m3 * (y2 + ny) + m.m5) 1 0 alpha rgba)
      (addVertex (m.m0 * (x2 - nx) + m.m2 * (y2 - ny) + m.m4) (m.m1 * (x2 - nx) + m.m3 * (y2 - ny) + m.m5) 1 1 alpha rgba)
      (addVertex (m.m0 * (x1 - nx) + m.m2 * (y1 - ny) + m.m4) (m.m1 * (x1 - nx) + m.m3 * (y1 - ny) + m.m5) 0 1 alpha rgba)

/-! ### Texture resource manager -/

/-- `_updateInAtlas`: re-upload an image's pixels at the pixel corner
recovered from its stored UV rect (`Math.round(uv.u0 * atlasSize)`); the
upload itself is try/catch-ignored, so only the attempted write location
is observable. -/
def updateInAtlas (e : Engine) (id : ℕ) : Engine :=
  match mapGet e.atlasCache id with
  | none => e
  | some uv =>
    let x := round (uv.u0 * (e.atlasSize : ℚ))
    let y := round (uv.v0 * (e.atlasSize : ℚ))
    { e with atlasWrites := e.atlasWrites ++ [(x, y, id)] }

/-- `_addToAtlas`: shelf packing.  Wrap to a new row when the row is
full, fail (`null`) when the atlas height is exhausted — note the wrap
mutation persists even on failure.  `atlasOk` is the outcome of the
try/caught `texSubImage2D` upload. -/
def addToAtlas (atlasOk : Bool) (e : Engine) (id : ℕ) : Option UVRect × Engine :=
  let img := getImg e id
  if img.width = 0 ∨ img.height = 0 then (none, e)
  else
    let w := img.width + atlasPadding * 2
    let h := img.height + atlasPadding * 2
    let e := if e.atlasSize < e.atlasX + w then
        { e with atlasX := 0, atlasY := e.atlasY + e.atlasRowHeight, atlasRowHeight := 0 }
      else e
    if e.atlasSize < e.atlasY + h then (none, e)
    else
      let x := e.atlasX + atlasPadding
      let y := e.atlasY + atlasPadding
      if atlasOk then
        let uv : UVRect := ⟨(x : ℚ) / (e.atlasSize : ℚ), (y : ℚ) / (e.atlasSize : ℚ),
                            ((x + img.width : ℕ) : ℚ) / (e.atlasSize : ℚ),
                            ((y + img.height : ℕ) : ℚ) / (e.atlasSize : ℚ)⟩
        (some uv, { e with
          atlasCache := mapSet e.atlasCache id uv,
          atlasX := e.atlasX + w,
          atlasRowHeight := max e.atlasRowHeight h,
          atlasWrites := e.atlasWrites ++ [((x : ℤ), (y : ℤ), id)] })
      else (none, e)

/-- Number of entries `_cleanupTextures` evicts:
`Math.ceil(maxTextureCacheSize * 0.2)` (for the constructor's 200 this is
40, also under IEEE-double rounding of `0.2`). -/
def evictCount (m : ℕ) : ℕ := Nat.ceil ((m : ℚ) * 0.2)

/-- `_cleanupTextures`: stable sort of the usage map ascending by
last-access timestamp (JS `Array.sort` is stable), then delete the first
`evictCount` entries' GPU textures and remove them from both maps. -/
def cleanupTextures (e : Engine) : Engine :=
  let sorted := List.insertionSort (fun a b => a.2 ≤ b.2) e.textureUsage
  let n := evictCount e.maxTextureCacheSize
  (sorted.take n).foldl (fun e p =>
    match mapGet e.textureCache p.1 with
    | some t =>
      if t ≠ e.whiteTexture then
        { e with
          freed := e.freed ++ [t],
          textureCache := mapDelete e.textureCache p.1,
          textureUsage := mapDelete e.textureUsage p.1 }
      else e
    | none => e) e

/-- Shared tail of the dedicated-texture path of `getTexture`: stamp the
usage clock, build the info record, memoize it onto the image. -/
def getTexFinish (now : ℕ) (e : Engine) (id : ℕ) (t : Tex) (img : ImageObj) :
    GetTexRet × Engine :=
  let e := { e with textureUsage := mapSet e.textureUsage id now }
  let ti : TexInfo := { texture := t, uv := none,
                        width := (img.width : ℚ), height := (img.height : ℚ) }
  (.txinfo ti, setImg e id { img with glTextureInfo := some ti })

/-- Dedicated-texture path of `getTexture` (cache miss creates and
uploads — the upload is try/caught and falls back to the white texture;
a cache hit with a dirty image re-uploads *unguarded*, so a failing
upload there is a JS exception, modelled as `.error`). -/
def getTextureDedicated (now : ℕ) (texOk : Bool) (e : Engine) (id : ℕ) :
    Except Unit (GetTexRet × Engine) :=
  let img := getImg e id
  match mapGet e.textureCache id with
  | none =>
    let e := if e.maxTextureCacheSize ≤ e.textureCache.length then cleanupTextures e else e
    let t := e.nextTex
    let e := { e with nextTex := t + 1 }
    if texOk then
      let e := { e with textureCache := mapSet e.textureCache id t }
      .ok (getTexFinish now e id t img)
    else
      .ok (.tex e.whiteTexture, e)
  | some t =>
    if img.needsUpdate then
      if texOk then
        .ok (getTexFinish now e id t { img with needsUpdate := false })
      else
        .error ()
    else
      .ok (getTexFinish now e id t img)

/-- `getTexture(image)`: memo hit, raw texture, atlas hit (with in-place
dirty update), atlas placement for small images, then the dedicated
path. -/
def getTexture (now : ℕ) (atlasOk texOk : Bool) (e : Engine) (x : Option ImgRef) :
    Except Unit (GetTexRet × Engine) :=
  match x with
  | none => .ok (.tex e.whiteTexture, e)
  | some (.rawTex t) => .ok (.tex t, e)
  | some (.image id) =>
    let img := getImg e id
    match img.glTextureInfo, img.needsUpdate with
    | some memo, false => .ok (.txinfo memo, e)
    | _, _ =>
      match mapGet e.atlasCache id with
      | some uv =>
        let (e, img) :=
          if img.needsUpdate then
            (setImg (updateInAtlas e id) id { img with needsUpdate := false },
             { img with needsUpdate := false })
          else (e, img)
        let ti : TexInfo := { texture := e.atlasTexture, uv := some uv,
                              width := (img.width : ℚ), height := (img.height : ℚ) }
        .ok (.txinfo ti, setImg e id { img with glTextureInfo := some ti })
      | none =>
        if 0 < img.width ∧ 0 < img.height ∧ img.width ≤ 512 ∧ img.height ≤ 512 ∧
            ¬img.disableAutoAtlas then
          match addToAtlas atlasOk e id with
          | (some uv, e) =>
            let ti : TexInfo := { texture := e.atlasTexture, uv := some uv,
                                  width := (img.width : ℚ), height := (img.height : ℚ) }
            .ok (.txinfo ti, setImg e id { getImg e id with glTextureInfo := some ti })
          | (none, e) => getTextureDedicated now texOk e id
        else
          getTextureDedicated now texOk e id

/-! ### Textured draw operations -/

/-- `drawImage` (9-argument normalized form; the 3/5-argument forms fill
in full-source/natural-size defaults before reaching this body). -/
def drawImage (now : ℕ) (atlasOk texOk : Bool) (e : Engine) (image : Option ImgRef)
    (sx sy sw sh dx dy dw dh : ℚ) : Except Unit Engine :=
  match image with
  | none => .ok e
  | some imgRef => do
    let (ret, e) ← getTexture now atlasOk texOk e (some imgRef)
    let texture := ret.texOf
    let e := bindTextureFor e texture
    let s := topState e
    let m := s.matrix
    let iw : ℚ := match imgRef with
      | .image id => ((getImg e id).width : ℚ)
      | .rawTex _ => 0
    let ih : ℚ := match imgRef with
      | .image id => ((getImg e id).height : ℚ)
      | .rawTex _ => 0
    let uvq : ℚ × ℚ × ℚ × ℚ :=
      match ret with
      | .txinfo ti =>
        match ti.uv with
        | some uv =>
          let iW := 1 / ti.width
          let iH := 1 / ti.height
          let aW := uv.u1 - uv.u0
          let aH := uv.v1 - uv.v0
          (uv.u0 + (sx * iW) * aW, uv.v0 + (sy * iH) * aH,
           uv.u0 + ((sx + sw) * iW) * aW, uv.v0 + ((sy + sh) * iH) * aH)
        | none => (sx / iw, sy / ih, (sx + sw) / iw, (sy + sh) / ih)
      | .tex _ => (sx / iw, sy / ih, (sx + sw) / iw, (sy + sh) / ih)
    let u0 := uvq.1
    let v0 := uvq.2.1
    let u1 := uvq.2.2.1
    let v1 := uvq.2.2.2
    let e :=
      if 0 < s.shadowBlur ∧ s.shadowColor ≠ "transparent" ∧ s.shadowColor ≠ "rgba(0,0,0,0)" then
        let sRGBA := parseColor s.shadowColor
        let glow := s.shadowBlur * 0.5
        let sA := s.alpha * 0.5
        let sx0 := dx - glow
        let sy0 := dy - glow
        let x1 := sx0 + dw + glow * 2
        let y1 := sy0 + dh + glow * 2
        let e := pushQuad e
          (addVertex (m.m0 * sx0 + m.m2 * sy0 + m.m4) (m.m1 * sx0 + m.m3 * sy0 + m.m5) u0 v0 sA sRGBA)
          (addVertex (m.m0 * x1 + m.m2 * sy0 + m.m4) (m.m1 * x1 + m.m3 * sy0 + m.m5) u1 v0 sA sRGBA)
          (addVertex (m.m0 * x1 + m.m2 * y1 + m.m4) (m.m1 * x1 + m.m3 * y1 + m.m5) u1 v1 sA sRGBA)
          (addVertex (m.m0 * sx0 + m.m2 * y1 + m.m4) (m.m1 * sx0 + m.m3 * y1 + m.m5) u0 v1 sA sRGBA)
        if e.maxBatchSize ≤ e.batchCount then flush e else e
      else e
    let rgba := if 0 < s.flash then (⟨1, 1, 1, 10⟩ : RGBA) else whiteRGBA
    let x1 := dx + dw
    let y1 := dy + dh
    .ok (pushQuad e
      (addVertex (m.m0 * dx + m.m2 * dy + m.m4) (m.m1 * dx + m.m3 * dy + m.m5) u0 v0 s.alpha rgba)
      (addVertex (m.m0 * x1 + m.m2 * dy + m.m4) (m.m1 * x1 + m.m3 * dy + m.m5) u1 v0 s.alpha rgba)
      (addVertex (m.m0 * x1 + m.m2 * y1 + m.m4) (m.m1 * x1 + m.m3 * y1 + m.m5) u1 v1 s.alpha rgba)
      (addVertex (m.m0 * dx + m.m2 * y1 + m.m4) (m.m1 * dx + m.m3 * y1 + m.m5) u0 v1 s.alpha rgba))

/-- Resolution step of `drawTexture`/`_drawTextureDirect`: produce the
bound texture and the final UV window. -/
def resolveTexSource (now : ℕ) (atlasOk texOk : Bool) (e : Engine) (src : TexSource)
    (u0 v0 u1 v1 : ℚ) : Except Unit ((Tex × ℚ × ℚ × ℚ × ℚ) × Engine) :=
  match src with
  | .image id => do
    let (ret, e) ← getTexture now atlasOk texOk e (some (.image id))
    match ret with
    | .txinfo ti =>
      match ti.uv with
      | some uv =>
        let uw := uv.u1 - uv.u0
        let vh := uv.v1 - uv.v0
        .ok ((ti.texture, uv.u0 + u0 * uw, uv.v0 + v0 * vh, uv.u0 + u1 * uw, uv.v0 + v1 * vh), e)
      | none => .ok ((ti.texture, u0, v0, u1, v1), e)
    | .tex t => .ok ((t, u0, v0, u1, v1), e)
  | .rawTex t => .ok ((t, u0, v0, u1, v1), e)
  | .texInfo ti =>
    match ti.uv with
    | some uv =>
      let uw := uv.u1 - uv.u0
      let vh := uv.v1 - uv.v0
      .ok ((ti.texture, uv.u0 + u0 * uw, uv.v0 + v0 * vh, uv.u0 + u1 * uw, uv.v0 + v1 * vh), e)
    | none => .ok ((ti.texture, u0, v0, u1, v1), e)

/-- `drawTexture(info, x, y, w, h, u0, v0, u1, v1, rotation, alpha,
flipX, flipY, tintR, tintG, tintB, flash)`. -/
def drawTexture (now : ℕ) (M : MathImpl) (atlasOk texOk : Bool) (e : Engine)
    (src : Option TexSource) (x y w h u0 v0 u1 v1 rotation alpha : ℚ)
    (flipX flipY : Bool) (tintR tintG tintB fl : ℚ) : Except Unit Engine :=
  match src with
  | none => .ok e
  | some info => do
    let (res, e) ← resolveTexSource now atlasOk texOk e info u0 v0 u1 v1
    let texture := res.1
    let e := bindTextureFor e texture
    let fU0 := if flipX then res.2.2.2.1 else res.2.1
    let fU1 := if flipX then res.2.1 else res.2.2.2.1
    let fV0 := if flipY then res.2.2.2.2 else res.2.2.1
    let fV1 := if flipY then res.2.2.1 else res.2.2.2.2
    let s := topState e
    let m := s.matrix
    let fA := alpha * s.alpha
    let rgba : RGBA := ⟨tintR, tintG, tintB, if 0 < fl then 10 else 1⟩
    if rotation = 0 then
      let x1 := x + w
      let y1 := y + h
      .ok (pushQuad e
        (addVertex (m.m0 * x + m.m2 * y + m.m4) (m.m1 * x + m.m3 * y + m.m5) fU0 fV0 fA rgba)
        (addVertex (m.m0 * x1 + m.m2 * y + m.m4) (m.m1 * x1 + m.m3 * y + m.m5) fU1 fV0 fA rgba)
        (addVertex (m.m0 * x1 + m.m2 * y1 + m.m4) (m.m1 * x1 + m.m3 * y1 + m.m5) fU1 fV1 fA rgba)
        (addVertex (m.m0 * x + m.m2 * y1 + m.m4) (m.m1 * x + m.m3 * y1 + m.m5) fU0 fV1 fA rgba))
    else
      let c := M.mcos rotation
      let sn := M.msin rotation
      let hw := w / 2
      let hh := h / 2
      let cx := x + hw
      let cy := y + hh
      let rx0 := -hw * c + hh * sn + cx
      let ry0 := -hw * sn - hh * c + cy
      let rx1 := hw * c + hh * sn + cx
      let ry1 := hw * sn - hh * c + cy
      let rx2 := hw * c - hh * sn + cx
      let ry2 := hw * sn + hh * c + cy
      let rx3 := -hw * c - hh * sn + cx
      let ry3 := -hw * sn + hh * c + cy
      .ok (pushQuad e
        (addVertex (m.m0 * rx0 + m.m2 * ry0 + m.m4) (m.m1 * rx0 + m.m3 * ry0 + m.m5) fU0 fV0 fA rgba)
        (addVertex (m.m0 * rx1 + m.m2 * ry1 + m.m4) (m.m1 * rx1 + m.m3 * ry1 + m.m5) fU1 fV0 fA rgba)
        (addVertex (m.m0 * rx2 + m.m2 * ry2 + m.m4) (m.m1 * rx2 + m.m3 * ry2 + m.m5) fU1 fV1 fA rgba)
        (addVertex (m.m0 * rx3 + m.m2 * ry3 + m.m4) (m.m1 * rx3 + m.m3 * ry3 + m.m5) fU0 fV1 fA rgba))

/-- `drawSpriteFast(image, x, y, w, h, rotation, alpha, tint)` — writes
its four vertices inline (its own flash encoding, not via `addVertex`). -/
def drawSpriteFast (now : ℕ) (M : MathImpl) (atlasOk texOk : Bool) (e : Engine)
    (image : Option ImgRef) (x y w h rotation alpha : ℚ) (tint : Option RGBA) :
    Except Unit Engine :=
  match image with
  | none => .ok e
  | some imgRef => do
    let (ret, e) ← getTexture now atlasOk texOk e (some imgRef)
    let texture :=
      match ret with
      | .txinfo ti => ti.texture
      | .tex t => t
    let uv : UVRect :=
      match ret with
      | .txinfo ti => ti.uv.getD ⟨0, 0, 1, 1⟩
      | .tex _ => ⟨0, 0, 1, 1⟩
    let e := bindTextureFor e texture
    let hw := w * 0.5
    let hh := h * 0.5
    let c := M.mcos rotation
    let sn := M.msin rotation
    let lx0 := -hw * c + hh * sn + x
    let ly0 := -hw * sn - hh * c + y
    let lx1 := hw * c + hh * sn + x
    let ly1 := hw * sn - hh * c + y
    let lx2 := hw * c - hh * sn + x
    let ly2 := hw * sn + hh * c + y
    let lx3 := -hw * c - hh * sn + x
    let ly3 := -hw * sn + hh * c + y
    let s := topState e
    let m := s.matrix
    let rgba := tint.getD whiteRGBA
    let fA := alpha * s.alpha
    let isFlash := 5 < rgba.a
    let cA : ℚ := if isFlash then 1 else min 1 rgba.a
    let ca := fA * cA
    let ff : ℚ := if isFlash then 2 else min 1 ca
    .ok (pushQuad e
      ⟨m.m0 * lx0 + m.m2 * ly0 + m.m4, m.m1 * lx0 + m.m3 * ly0 + m.m5, uv.u0, uv.v0, ca, rgba.r, rgba.g, rgba.b, ff⟩
      ⟨m.m0 * lx1 + m.m2 * ly1 + m.m4, m.m1 * lx1 + m.m3 * ly1 + m.m5, uv.u1, uv.v0, ca, rgba.r, rgba.g, rgba.b, ff⟩
      ⟨m.m0 * lx2 + m.m2 * ly2 + m.m4, m.m1 * lx2 + m.m3 * ly2 + m.m5, uv.u1, uv.v1, ca, rgba.r, rgba.g, rgba.b, ff⟩
      ⟨m.m0 * lx3 + m.m2 * ly3 + m.m4, m.m1 * lx3 + m.m3 * ly3 + m.m5, uv.u0, uv.v1, ca, rgba.r, rgba.g, rgba.b, ff⟩)

/-- `_drawTextureDirect` (overrides default to the state's alpha and
white tint; a gradient/short tint degrades to white at the call sites
that can produce one, so the override here is a plain RGBA). -/
def drawTextureDirect (now : ℕ) (atlasOk texOk : Bool) (e : Engine) (src : TexSource)
    (x y w h : ℚ) (alphaOverride : Option ℚ) (rgbaOverride : Option RGBA)
    (u0 v0 u1 v1 : ℚ) : Except Unit Engine := do
  let (res, e) ← resolveTexSource now atlasOk texOk e src u0 v0 u1 v1
  let texture := res.1
  let fU0 := res.2.1
  let fV0 := res.2.2.1
  let fU1 := res.2.2.2.1
  let fV1 := res.2.2.2.2
  let e := bindTextureFor e texture
  let s := topState e
  let m := s.matrix
  let alpha := alphaOverride.getD s.alpha
  let rgba := rgbaOverride.getD whiteRGBA
  let x1 := x + w
  let y1 := y + h
  .ok (pushQuad e
    (addVertex (m.m0 * x + m.m2 * y + m.m4) (m.m1 * x + m.m3 * y + m.m5) fU0 fV0 alpha rgba)
    (addVertex (m.m0 * x1 + m.m2 * y + m.m4) (m.m1 * x1 + m.m3 * y + m.m5) fU1 fV0 alpha rgba)
    (addVertex (m.m0 * x1 + m.m2 * y1 + m.m4) (m.m1 * x1 + m.m3 * y1 + m.m5) fU1 fV1 alpha rgba)
    (addVertex (m.m0 * x + m.m2 * y1 + m.m4) (m.m1 * x + m.m3 * y1 + m.m5) fU0 fV1 alpha rgba))

/-! ### Bitmap text and the damage-number lane -/

/-- Glyph lookup in the prebuilt bitmap font. -/
def fontGet (e : Engine) (c : Char) : Option Glyph :=
  (e.bitmapFont.find? (fun p => p.1 = c)).map (fun p => p.2)

/-- `drawBitmapText(text, x, y, size, color, alpha, align, baseline)`:
empty text is a silent no-op, otherwise one `_drawTextureDirect` quad
per known glyph. -/
def drawBitmapText (now : ℕ) (atlasOk texOk : Bool) (e : Engine) (text : String)
    (x y size : ℚ) (color : ColorV) (alpha : ℚ) (align baseline : String) :
    Except Unit Engine :=
  if text = "" then .ok e
  else
    let rgba := resolveColorV color
    let scale := size / 64
    let chars := text.toList
    let totalW := chars.foldl (fun acc c =>
      match fontGet e c with
      | some i => acc + i.width * scale
      | none => acc + size * 0.5) 0
    let curX0 := if align = "center" then x - totalW / 2
      else if align = "right" then x - totalW else x
    let bOff : ℚ := if baseline = "top" then size * 0.5
      else if baseline = "bottom" then -(size * 0.5) else 0
    let run : Except Unit (ℚ × Engine) := chars.foldlM (fun (acc : ℚ × Engine) c =>
      let curX := acc.1
      let e := acc.2
      match fontGet e c with
      | some i =>
        (drawTextureDirect now atlasOk texOk e (.rawTex i.texture)
          (curX - i.padding * scale) (y - (i.renderHeight / 2) * scale + bOff)
          (i.renderWidth * scale) (i.renderHeight * scale) (some alpha) (some rgba)
          i.u0 i.v0 i.u1 i.v1).map (fun e => (curX + i.width * scale, e))
      | none => .ok (curX + size * 0.5, e)) (curX0, e)
    run.map (fun p => p.2)

/-- `flushDamageNumbers()`: one draw with the damage-number evaluator
bound; note `dnCurrentTexture` is *not* reset. -/
def flushDamageNumbers (e : Engine) : Engine :=
  if e.dnBatchCount = 0 ∨ e.dnCurrentTexture.isNone then e
  else
    { e with
      gpu := e.gpu ++ [.drawDN { texture := e.dnCurrentTexture.getD e.whiteTexture,
                                 quadCount := e.dnBatchCount,
                                 verts := e.dnPendingVerts }],
      drawCallCount := e.drawCallCount + 1,
      triangleCount := e.triangleCount + e.dnBatchCount * 2,
      dnBatchCount := 0, dnPendingVerts := [] }

/-- `drawGPUDamageNumber(text, x, y, vx, vy, startTime, duration, size,
color, alpha)`: empty text is a silent no-op; otherwise one quad per
glyph into the damage-number arena, flushing on glyph-texture change or
full arena. -/
def drawGPUDamageNumber (e : Engine) (text : String) (x y vx vy startTime duration size : ℚ)
    (color : ColorV) (alpha : ℚ) : Engine :=
  if text = "" then e
  else
    let rgba := resolveColorV color
    let baseScale := size / 64
    let chars := text.toList
    let totalW : ℚ := chars.foldl (fun acc c =>
      match fontGet e c with
      | some i => acc + i.width
      | none => acc + 32) 0
    (chars.foldl (fun (acc : ℚ × Engine) c =>
      let curCharX := acc.1
      let e := acc.2
      match fontGet e c with
      | none => (curCharX + 32, e)
      | some i =>
        let e :=
          if e.dnCurrentTexture ≠ some i.texture ∨ e.dnMaxBatchSize ≤ e.dnBatchCount then
            { flushDamageNumbers e with dnCurrentTexture := some i.texture }
          else e
        let x0 := -i.padding
        let y0 := -(i.renderHeight / 2)
        let x1 := x0 + i.renderWidth
        let y1 := y0 + i.renderHeight
        let mk := fun (px py u v : ℚ) =>
          (⟨px, py, u, v, x, y, curCharX, 0, vx, vy, startTime, duration, baseScale,
            rgba.r, rgba.g, rgba.b, alpha⟩ : DNVertex)
        let e := { e with
          dnPendingVerts := e.dnPendingVerts ++
            [mk x0 y0 i.u0 i.v0, mk x1 y0 i.u1 i.v0, mk x1 y1 i.u1 i.v1, mk x0 y1 i.u0 i.v1],
          dnBatchCount := e.dnBatchCount + 1 }
        (curCharX + i.width, e)) (-(totalW / 2), e)).2

/-! ### The damage-number vertex evaluator (GPU-side, pure) -/

/-- Per-draw uniforms of the damage-number program. -/
structure DNUniforms where
  resolutionX : ℚ
  resolutionY : ℚ
  dpr : ℚ
  currentTime : ℚ
  cameraX : ℚ
  cameraY : ℚ
  gravity : ℚ
deriving DecidableEq, Repr

/-- Outcome of the vertex evaluator: the off-screen sentinel position
`vec4(-2, -2, 0, 1)` or a computed clip position with the glyph's scale,
faded alpha and flash intensity. -/
inductive DNOut where
  | sentinel
  | visible (clipX clipY scale alpha flash : ℚ)
deriving DecidableEq, Repr

/-- GLSL `mix(a, b, t)`. -/
def glslMix (a b t : ℚ) : ℚ := a + (b - a) * t

/-- The damage-number vertex shader body (`initDamageNumberShader`),
evaluated per glyph vertex at draw time. -/
def dnEval (M : MathImpl) (u : DNUniforms) (vert : DNVertex) : DNOut :=
  let t0 := u.currentTime - vert.spawnTime
  if t0 < -0.05 ∨ vert.duration + 0.1 < t0 then .sentinel
  else
    let t := max 0 t0
    let progress := t / vert.duration
    let scale1 :=
      if progress < 0.2 then vert.scale * glslMix 0.3 1 (progress / 0.2)
      else if 0.7 < progress then vert.scale * (1 - (progress - 0.7) / 0.3)
      else vert.scale
    let scale := if t < 0.1 then scale1 * (1 + M.msin (t * 10 * 1.57) * 0.1) else scale1
    let resistance := M.mexp (-3 * t)
    let px := vert.startX + vert.charOffX * scale + vert.vx * t * resistance
    let py := vert.startY + vert.charOffY * scale + vert.vy * t + 0.5 * u.gravity * t * t
    let screenX := (px - u.cameraX) * u.dpr + u.resolutionX / 2 + vert.posOffX * scale * u.dpr
    let screenY := (py - u.cameraY) * u.dpr + u.resolutionY / 2 + vert.posOffY * scale * u.dpr
    let clipX := (screenX / u.resolutionX) * 2 - 1
    let clipY := ((screenY / u.resolutionY) * 2 - 1) * (-1)
    let alpha := if 0.7 < progress then 1 - (progress - 0.7) / 0.3 else 1
    let flash := if progress < 0.2 then 0.6 * (1 - progress / 0.2) else 0
    .visible clipX clipY scale (alpha * vert.alpha) flash

/-! ### Clearing and frame control -/

/-- `resetState()`: reset the batch, pool every pushed state, restore the
root to defaults with the device-pixel-ratio scale, re-assert normal
compositing. -/
def resetState (e : Engine) : Engine :=
  let e := { e with batchCount := 0, currentTexture := none }
  let e := { e with
    statePool := e.stateStack.dropLast.reverse ++ e.statePool,
    stateStack := [e.stateStack.getLastD defaultState] }
  let root := copyState defaultState (topState e)
  let d : ℚ := if e.dpr = 0 then 1 else e.dpr
  let root := { root with matrix := { root.matrix with m0 := d, m3 := d } }
  let e := { e with stateStack := [root] }
  let e := setGlobalCompositeOperation e "source-over"
  updateBlendMode e

/-- `clear()`: flush, clear the whole surface, reset state. -/
def clear (e : Engine) : Engine :=
  let e := flush e
  let e := { e with gpu := e.gpu ++ [.clearScreen] }
  resetState e

/-- `clearRect(x, y, w, h)`: only a rectangle covering the full canvas
(in CSS pixels, within a 1-pixel tolerance) clears; anything else does
nothing at all. -/
def clearRect (e : Engine) (x y w h : ℚ) : Engine :=
  let t : ℚ := 1
  if x ≤ t ∧ y ≤ t ∧ e.width / e.dpr - t ≤ w ∧ e.height / e.dpr - t ≤ h then clear e
  else e

/-! ### Static index buffer (`initBuffers`) -/

/-- The precomputed static index buffer content: for each quad `i` the
six indices `4i, 4i+1, 4i+2, 4i, 4i+2, 4i+3`. -/
def buildIndices (maxQuads : ℕ) : List ℕ :=
  (List.range maxQuads).flatMap (fun i => [4 * i, 4 * i + 1, 4 * i + 2, 4 * i, 4 * i + 2, 4 * i + 3])

/-! ### Constructor -/

/-- The engine state right after the constructor: empty caches and
batches, root state only, identity transform, normal blending.  `maxTex`
is the hardware `MAX_TEXTURE_SIZE`; `imgs` is the client image
population; `font` the bitmap-font atlas built by `initBitmapFont`
(external canvas text measurement, hence a parameter). -/
def initEngine (w h : ℚ) (maxTex : ℕ) (imgs : List (ℕ × ImageObj))
    (font : List (Char × Glyph)) : Engine :=
  { width := w, height := h, dpr := 1, currentTime := 0, cameraX := 0, cameraY := 0,
    whiteTexture := 0, atlasTexture := 1,
    maxBatchSize := 8192, maxTextureCacheSize := 200,
    atlasSize := min maxTex 4096, dnMaxBatchSize := 4000,
    batchCount := 0, pendingVerts := [], currentTexture := none,
    dnBatchCount := 0, dnPendingVerts := [], dnCurrentTexture := none,
    gpu := [], glBlend := .oneOneMinusSrcAlpha, freed := [], nextTex := 2,
    drawCallCount := 0, triangleCount := 0,
    stateStack := [defaultState], statePool := [],
    images := imgs, textureCache := [], textureUsage := [], atlasCache := [],
    atlasX := 0, atlasY := 0, atlasRowHeight := 0, atlasWrites := [],
    bitmapFont := font }

/-- A concrete math implementation for witnesses: identically zero, which
satisfies the fixed points the claims need (sin 0 = 0, sqrt 0 = 0). -/
def mathZero : MathImpl := ⟨fun _ => 0, fun _ => 0, fun _ => 0, fun _ => 0⟩

/-! ### Basic lemmas about the batcher -/

theorem flush_of_empty (e : Engine) (h : e.batchCount = 0) : flush e = e := by
  simp [flush, h]

theorem stateStack_flush (e : Engine) : (flush e).stateStack = e.stateStack := by
  unfold flush; split <;> rfl

theorem statePool_flush (e : Engine) : (flush e).statePool = e.statePool := by
  unfold flush; split <;> rfl

theorem images_flush (e : Engine) : (flush e).images = e.images := by
  unfold flush; split <;> rfl

theorem whiteTexture_flush (e : Engine) : (flush e).whiteTexture = e.whiteTexture := by
  unfold flush; split <;> rfl

theorem maxBatchSize_flush (e : Engine) : (flush e).maxBatchSize = e.maxBatchSize := by
  unfold flush; split <;> rfl

theorem glBlend_flush (e : Engine) : (flush e).glBlend = e.glBlend := by
  unfold flush; split <;> rfl

theorem batchCount_flush (e : Engine) : (flush e).batchCount = 0 ∨ flush e = e := by
  unfold flush; split
  · exact Or.inr rfl
  · exact Or.inl rfl

theorem topState_flush (e : Engine) : topState (flush e) = topState e := by
  simp [topState, stateStack_flush]

theorem stateStack_updateBlendMode (e : Engine) :
    (updateBlendMode e).stateStack = e.stateStack := rfl

theorem statePool_updateBlendMode (e : Engine) :
    (updateBlendMode e).statePool = e.statePool := rfl

theorem tail_modifyHead {α : Type} (f : α → α) (l : List α) :
    (l.modifyHead f).tail = l.tail := by
  cases l <;> simp

theorem length_modifyHead {α : Type} (f : α → α) (l : List α) :
    (l.modifyHead f).length = l.length := by
  cases l <;> simp

theorem gpu_flush (e : Engine) :
    (flush e).gpu = e.gpu ++
      (if 0 < e.batchCount then
        [GpuEvent.draw { texture := e.currentTexture.getD e.whiteTexture,
                         quadCount := e.batchCount, indexCount := e.batchCount * 6,
                         verts := e.pendingVerts, blend := e.glBlend }] else []) := by
  unfold flush
  by_cases h : e.batchCount = 0
  · simp [h]
  · simp [h, Nat.pos_of_ne_zero h]

theorem batchCount_flush_zero (e : Engine) : (flush e).batchCount = 0 := by
  unfold flush
  by_cases h : e.batchCount = 0
  · simp [h]
  · simp [h]

/-- A shared concrete engine for witnessing the claims. -/
def egEngine : Engine := initEngine 800 600 4096 [] []

/-! ## Claim C10 — `clearRect` clears only on a full-cover rectangle -/

/-- C10: `clearRect(x, y, w, h)` performs the full clear (whole-canvas
clear plus state reset) exactly when the rectangle covers the full
canvas in CSS pixels within a 1-pixel tolerance (`x ≤ 1`, `y ≤ 1`,
`w ≥ width/dpr − 1`, `h ≥ height/dpr − 1`); for every other rectangle
the call changes nothing at all — no pixels cleared, no flush, no batch
or state-stack modification. -/
theorem c10_clearRect_full_cover_only (e : Engine) (x y w h : ℚ) :
    (¬(x ≤ 1 ∧ y ≤ 1 ∧ e.width / e.dpr - 1 ≤ w ∧ e.height / e.dpr - 1 ≤ h) →
      clearRect e x y w h = e) ∧
    ((x ≤ 1 ∧ y ≤ 1 ∧ e.width / e.dpr - 1 ≤ w ∧ e.height / e.dpr - 1 ≤ h) →
      clearRect e x y w h = clear e ∧
      (clear e).gpu = (flush e).gpu ++ [GpuEvent.clearScreen] ∧
      (clear e).batchCount = 0 ∧ (clear e).currentTexture = none ∧
      (clear e).stateStack.length = 1) := by
  constructor
  · intro hc
    simp only [clearRect]
    split
    · exact absurd (by assumption) hc
    · rfl
  · intro hc
    have hcr : clearRect e x y w h = clear e := by
      simp only [clearRect]
      split
      · rfl
      · exact absurd hc (by assumption)
    refine ⟨hcr, ?_, ?_, ?_, ?_⟩ <;>
      simp [clear, resetState, setGlobalCompositeOperation, topState, copyState,
            defaultState, updateBlendMode]

/-- Witness for C10: on a fresh 800×600 engine, a partial rectangle is a
strict no-op and a covering rectangle performs the clear. -/
theorem c10_witness :
    clearRect egEngine 5 5 10 10 = egEngine ∧
    clearRect egEngine 0 0 800 600 = clear egEngine := by
  constructor
  · exact (c10_clearRect_full_cover_only egEngine 5 5 10 10).1
      (by norm_num [egEngine, initEngine])
  · exact ((c10_clearRect_full_cover_only egEngine 0 0 800 600).2
      (by norm_num [egEngine, initEngine])).1

/-! ## Claim C4 — composite-mode change forces a flush; same-value style sets are no-ops -/

/-- C4: assigning `globalCompositeOperation` a different value flushes
the sprite batcher (submitting any queued quads under the *old* blend
state) before the new mode is recorded and the blend function updated;
assigning the current value is a no-op, and likewise same-value
`fillStyle`/`strokeStyle` assignments change nothing. -/
theorem c4_composite_change_flushes (e : Engine) (v : String) (fs ss : StyleVal) :
    ((topState e).globalCompositeOperation = v → setGlobalCompositeOperation e v = e) ∧
    (e.stateStack ≠ [] → (topState e).globalCompositeOperation ≠ v →
      (setGlobalCompositeOperation e v).gpu =
        e.gpu ++ (if 0 < e.batchCount then
          [GpuEvent.draw { texture := e.currentTexture.getD e.whiteTexture,
                           quadCount := e.batchCount, indexCount := e.batchCount * 6,
                           verts := e.pendingVerts, blend := e.glBlend }] else []) ∧
      (setGlobalCompositeOperation e v).batchCount = 0 ∧
      (topState (setGlobalCompositeOperation e v)).globalCompositeOperation = v ∧
      (setGlobalCompositeOperation e v).glBlend =
        blendOf (if v = "" then "source-over" else v)) ∧
    ((topState e).fillStyle = fs → setFillStyle e fs = e) ∧
    ((topState e).strokeStyle = ss → setStrokeStyle e ss = e) := by
  refine ⟨?_, ?_, ?_, ?_⟩
  · intro hsame
    simp [setGlobalCompositeOperation, hsame]
  · intro hne hdiff
    obtain ⟨s, rest, hstk⟩ : ∃ s rest, e.stateStack = s :: rest := by
      cases hs : e.stateStack with
      | nil => exact absurd hs hne
      | cons s rest => exact ⟨s, rest, rfl⟩
    have hdiff' : s.globalCompositeOperation ≠ v := by
      rw [topState, hstk] at hdiff; simpa using hdiff
    refine ⟨?_, ?_, ?_, ?_⟩
    · simp [setGlobalCompositeOperation, topState, hstk, hdiff', updateBlendMode,
            modifyTop, gpu_flush]
    · simp [setGlobalCompositeOperation, topState, hstk, hdiff', updateBlendMode,
            modifyTop, batchCount_flush_zero]
    · simp [setGlobalCompositeOperation, topState, hstk, hdiff', updateBlendMode,
            modifyTop, stateStack_flush]
    · simp [setGlobalCompositeOperation, topState, hstk, hdiff', updateBlendMode,
            modifyTop, gcoGet, stateStack_flush]
  · intro hsame
    simp [setFillStyle, hsame]
  · intro hsame
    simp [setStrokeStyle, hsame]

/-- Witness for C4 at concrete inputs on the fresh engine. -/
theorem c4_witness :
    setGlobalCompositeOperation egEngine "source-over" = egEngine ∧
    (setGlobalCompositeOperation egEngine "lighter").glBlend = BlendFn.oneOne ∧
    setFillStyle egEngine (.str "#ffffff") = egEngine := by
  refine ⟨?_, ?_, ?_⟩
  · exact (c4_composite_change_flushes egEngine "source-over" (.str "#ffffff")
      (.str "#000000")).1 (by decide)
  · have h := ((c4_composite_change_flushes egEngine "lighter" (.str "#ffffff")
      (.str "#000000")).2.1 (by decide) (by decide)).2.2.2
    rw [h]; decide
  · exact (c4_composite_change_flushes egEngine "lighter" (.str "#ffffff")
      (.str "#000000")).2.2.1 (by decide)

/-! ## Claim C3 — state-stack balance and save/mutate/restore round trip -/

/-- A `save()` or `restore()` call. -/
inductive SROp where
  | sv
  | rst
deriving DecidableEq, Repr

def applySROp (e : Engine) : SROp → Engine
  | .sv => save e
  | .rst => restore e

def applySROps (e : Engine) (ops : List SROp) : Engine :=
  ops.foldl applySROp e

/-- One top-state setter mutation (every style/transform setter the
engine exposes on the current state). -/
inductive Mut where
  | mFillStyle (v : StyleVal)
  | mStrokeStyle (v : StyleVal)
  | mGlobalAlpha (v : ℚ)
  | mFlash (b : Bool)
  | mLineWidth (v : ℚ)
  | mShadowBlur (v : ℚ)
  | mShadowColor (v : String)
  | mFont (v : String)
  | mTextAlign (v : String)
  | mTextBaseline (v : String)
  | mLineCap (v : String)
  | mLineJoin (v : String)
  | mGCO (v : String)
  | mTranslate (x y : ℚ)
  | mScale (x y : ℚ)
  | mRotate (a : ℚ)
  | mSetTransform (a b c d tx ty : ℚ)
deriving DecidableEq, Repr

def applyMut (M : MathImpl) (e : Engine) : Mut → Engine
  | .mFillStyle v => setFillStyle e v
  | .mStrokeStyle v => setStrokeStyle e v
  | .mGlobalAlpha v => setGlobalAlpha e v
  | .mFlash b => setFlash e b
  | .mLineWidth v => setLineWidth e v
  | .mShadowBlur v => setShadowBlur e v
  | .mShadowColor v => setShadowColor e v
  | .mFont v => setFont e v
  | .mTextAlign v => setTextAlign e v
  | .mTextBaseline v => setTextBaseline e v
  | .mLineCap v => setLineCap e v
  | .mLineJoin v => setLineJoin e v
  | .mGCO v => setGlobalCompositeOperation e v
  | .mTranslate x y => translateOp e x y
  | .mScale x y => scaleOp e x y
  | .mRotate a => rotateOp M e a
  | .mSetTransform a b c d tx ty => setTransformOp e a b c d tx ty

def applyMuts (M : MathImpl) (e : Engine) (muts : List Mut) : Engine :=
  muts.foldl (applyMut M) e

/-- Every setter mutation touches at most the top state (and the
batcher/blend state for composite-mode changes): the stack tail, its
length, and the pool are untouched. -/
theorem applyMut_stack_shape (M : MathImpl) (e : Engine) (mu : Mut) :
    (applyMut M e mu).stateStack.tail = e.stateStack.tail ∧
    (applyMut M e mu).statePool = e.statePool ∧
    (applyMut M e mu).stateStack.length = e.stateStack.length := by
  cases mu <;>
    simp only [applyMut, setFillStyle, setStrokeStyle, setGlobalAlpha, setFlash,
      setLineWidth, setShadowBlur, setShadowColor, setFont, setTextAlign,
      setTextBaseline, setLineCap, setLineJoin, setGlobalCompositeOperation,
      translateOp, scaleOp, rotateOp, setTransformOp, modifyTop, updateBlendMode] <;>
    (repeat' split) <;>
    simp [tail_modifyHead, length_modifyHead, stateStack_flush, statePool_flush]

theorem applyMuts_stack_shape (M : MathImpl) (e : Engine) (muts : List Mut) :
    (applyMuts M e muts).stateStack.tail = e.stateStack.tail ∧
    (applyMuts M e muts).statePool = e.statePool ∧
    (applyMuts M e muts).stateStack.length = e.stateStack.length := by
  induction muts generalizing e with
  | nil => exact ⟨rfl, rfl, rfl⟩
  | cons mu rest ih =>
    have h1 := applyMut_stack_shape M e mu
    have h2 := ih (applyMut M e mu)
    exact ⟨h1.1 ▸ h2.1, h1.2.1 ▸ h2.2.1, h1.2.2 ▸ h2.2.2⟩

theorem one_le_length_save (e : Engine) :
    (save e).stateStack.length = e.stateStack.length + 1 := by
  simp [save]

theorem restore_stateStack_cases (e : Engine) :
    restore e = e ∨
    ((restore e).stateStack = e.stateStack.tail ∧
     (restore e).statePool = topState e :: e.statePool ∧ 2 ≤ e.stateStack.length) := by
  unfold restore
  split
  · exact Or.inl rfl
  · next hlen =>
    right
    refine ⟨?_, ?_, by omega⟩
    · dsimp only
      split <;> simp [stateStack_flush, updateBlendMode]
    · dsimp only
      split <;> simp [statePool_flush, updateBlendMode]

/-- C3: for any sequence of save/restore calls the stack depth never
drops below 1 (restore at the root is a no-op), and after
`save(); mutations; restore()` the whole state stack — in particular the
observable top state with all its copied fields — is exactly the
pre-save stack, with the discarded mutated state returned to the pool. -/
theorem c3_state_stack_balance (M : MathImpl) :
    (∀ (e : Engine) (ops : List SROp), 1 ≤ e.stateStack.length →
      1 ≤ (applySROps e ops).stateStack.length) ∧
    (∀ e : Engine, e.stateStack.length ≤ 1 → restore e = e) ∧
    (∀ (e : Engine) (muts : List Mut), e.stateStack ≠ [] →
      (restore (applyMuts M (save e) muts)).stateStack = e.stateStack ∧
      topState (applyMuts M (save e) muts) ∈
        (restore (applyMuts M (save e) muts)).statePool) := by
  refine ⟨?_, ?_, ?_⟩
  · intro e ops
    induction ops generalizing e with
    | nil => exact fun h => h
    | cons op rest ih =>
      intro h1
      refine ih (applySROp e op) ?_
      cases op with
      | sv =>
        simp only [applySROp, one_le_length_save]
        omega
      | rst =>
        rcases restore_stateStack_cases e with hid | ⟨hs, _, hlen⟩
        · simpa [applySROp, hid] using h1
        · simp only [applySROp, hs]
          have := e.stateStack.length_tail
          omega
  · intro e h
    unfold restore
    simp [h]
  · intro e muts hne
    obtain ⟨s, rest, hstk⟩ : ∃ s rest, e.stateStack = s :: rest := by
      cases hs : e.stateStack with
      | nil => exact absurd hs hne
      | cons s rest => exact ⟨s, rest, rfl⟩
    set e2 := applyMuts M (save e) muts with he2
    have hshape := applyMuts_stack_shape M (save e) muts
    have hsavestk : (save e).stateStack =
        copyState (topState e) (e.statePool.headD defaultState) :: e.stateStack := by
      simp [save]
    have htail : e2.stateStack.tail = e.stateStack := by
      rw [hshape.1, hsavestk]
      rfl
    have hlen : e2.stateStack.length = e.stateStack.length + 1 := by
      rw [hshape.2.2, one_le_length_save]
    obtain ⟨x, xs, hx⟩ : ∃ x xs, e2.stateStack = x :: xs := by
      cases hv : e2.stateStack with
      | nil => rw [hv] at hlen; simp at hlen
      | cons x xs => exact ⟨x, xs, rfl⟩
    have hxs : xs = e.stateStack := by
      have := htail
      rw [hx] at this
      simpa using this
    have hlen2 : ¬ e2.stateStack.length ≤ 1 := by
      rw [hlen, hstk]
      simp
    have htop2 : topState e2 = x := by
      rw [topState, hx]; rfl
    unfold restore
    rw [if_neg hlen2]
    constructor
    · dsimp only
      split <;> simp [stateStack_flush, updateBlendMode, hx, hxs]
    · dsimp only
      split <;>
        simp [statePool_flush, updateBlendMode, hx, htop2, topState]

/-- Witness for C3: a concrete save/mutate/restore round trip and a
restore-at-root sequence on the fresh engine. -/
theorem c3_witness :
    (restore (applyMuts mathZero (save egEngine)
      [Mut.mGlobalAlpha (1/2), Mut.mTranslate 3 4])).stateStack = egEngine.stateStack ∧
    1 ≤ (applySROps egEngine [SROp.rst, SROp.rst, SROp.sv]).stateStack.length ∧
    restore egEngine = egEngine := by
  refine ⟨?_, ?_, ?_⟩
  · exact ((c3_state_stack_balance mathZero).2.2 egEngine
      [Mut.mGlobalAlpha (1/2), Mut.mTranslate 3 4] (by decide)).1
  · exact (c3_state_stack_balance mathZero).1 egEngine
      [SROp.rst, SROp.rst, SROp.sv] (by decide)
  · exact (c3_state_stack_balance mathZero).2.1 egEngine (by decide)

/-! ## Claim C9 — degenerate per-draw inputs -/

/-- A reachable engine holding one queued quad under a non-white
texture: the fresh engine after one `drawTexture` call on a raw texture
handle. -/
def egNonWhiteBatch : Engine :=
  match drawTexture 0 mathZero true true egEngine (some (.rawTex 7)) 0 0 10 10 0 0 1 1 0 1
      false false 1 1 1 0 with
  | .ok e => e
  | .error _ => egEngine

/-- Counterexample to C9 as stated: a zero-length line is *not* always a
silent no-op.  With one quad queued under texture 7, `_drawLine` with
coincident endpoints first runs the texture-bind guard — issuing a draw
submission for the pending batch and rebinding the white texture —
before discarding the degenerate segment. -/
theorem c9_counterexample :
    drawLineRaw mathZero egNonWhiteBatch 5 5 5 5 2 whiteRGBA 1
      (topState egNonWhiteBatch).matrix ≠ egNonWhiteBatch ∧
    (drawLineRaw mathZero egNonWhiteBatch 5 5 5 5 2 whiteRGBA 1
      (topState egNonWhiteBatch).matrix).drawCallCount =
      egNonWhiteBatch.drawCallCount + 1 ∧
    (drawLineRaw mathZero egNonWhiteBatch 5 5 5 5 2 whiteRGBA 1
      (topState egNonWhiteBatch).matrix).currentTexture =
      some egNonWhiteBatch.whiteTexture := by
  refine ⟨by decide, by decide, by decide⟩

/-- C9 (amended): drawing a null image (`drawImage`/`drawTexture`/
`drawSpriteFast`), empty damage-number text and empty bitmap text are
strict no-ops; a zero-length line (coincident endpoints) emits no
vertices and no quad, but does run the white-texture bind step first
(possibly flushing a pending non-white batch); it is a strict no-op
exactly when the white texture is already bound and the batch is below
capacity. -/
theorem c9_degenerate_inputs (now : ℕ) (M : MathImpl) (aOk tOk : Bool) (e : Engine)
    (sx sy sw sh dx dy dw dh : ℚ) (x y w h u0 v0 u1 v1 rot alph : ℚ) (fx fy : Bool)
    (tr tg tb fl : ℚ) (tint : Option RGBA) (px py vx vy t0 dur size : ℚ) (color : ColorV)
    (align baseline : String) (lw : ℚ) (rgba : RGBA) (m : Mat2D) :
    drawImage now aOk tOk e none sx sy sw sh dx dy dw dh = .ok e ∧
    drawTexture now M aOk tOk e none x y w h u0 v0 u1 v1 rot alph fx fy tr tg tb fl = .ok e ∧
    drawSpriteFast now M aOk tOk e none x y w h rot alph tint = .ok e ∧
    drawGPUDamageNumber e "" px py vx vy t0 dur size color alph = e ∧
    drawBitmapText now aOk tOk e "" x y size color alph align baseline = .ok e ∧
    (M.msqrt 0 = 0 →
      drawLineRaw M e x y x y lw rgba alph m = bindTextureFor e e.whiteTexture) ∧
    (M.msqrt 0 = 0 → e.currentTexture = some e.whiteTexture →
      e.batchCount < e.maxBatchSize →
      drawLineRaw M e x y x y lw rgba alph m = e) := by
  have hline : M.msqrt 0 = 0 →
      drawLineRaw M e x y x y lw rgba alph m = bindTextureFor e e.whiteTexture := by
    intro h0
    simp [drawLineRaw, sub_self, h0]
  refine ⟨rfl, rfl, rfl, ?_, ?_, hline, ?_⟩
  · simp [drawGPUDamageNumber]
  · simp [drawBitmapText]
  · intro h0 hcur hlt
    rw [hline h0]
    have hguard : ¬(e.currentTexture ≠ some e.whiteTexture ∨
        e.maxBatchSize ≤ e.batchCount) := by
      push_neg
      exact ⟨not_ne_iff.mp (not_not_intro hcur), hlt⟩
    simp only [bindTextureFor, if_neg hguard]

/-- A reachable engine with the white texture bound: the fresh engine
after one `_drawRect` quad. -/
def egWhiteBound : Engine := drawRectRaw egEngine 0 0 5 5 whiteRGBA 1

/-- Witness for C9 (amended) at concrete inputs. -/
theorem c9_witness :
    drawImage 0 true true egEngine none 0 0 1 1 0 0 1 1 = .ok egEngine ∧
    drawGPUDamageNumber egEngine "" 0 0 0 0 0 1 24 (.arr whiteRGBA) 1 = egEngine ∧
    drawLineRaw mathZero egWhiteBound 5 5 5 5 2 whiteRGBA 1 (topState egWhiteBound).matrix =
      egWhiteBound := by
  have h := c9_degenerate_inputs 0 mathZero true true egEngine
    0 0 1 1 0 0 1 1 5 5 1 1 0 0 1 1 0 1 false false 1 1 1 0 none
    0 0 0 0 0 1 24 (.arr whiteRGBA) "left" "middle" 2 whiteRGBA (topState egEngine).matrix
  have h2 := c9_degenerate_inputs 0 mathZero true true egWhiteBound
    0 0 1 1 0 0 1 1 5 5 1 1 0 0 1 1 0 1 false false 1 1 1 0 none
    0 0 0 0 0 1 24 (.arr whiteRGBA) "left" "middle" 2 whiteRGBA (topState egWhiteBound).matrix
  exact ⟨h.1, h.2.2.2.1, h2.2.2.2.2.2.2 rfl (by decide) (by decide)⟩

/-! ## Claim C7 — GPU upload failure resolves to the white fallback -/

/-- A 600×600 client image (too large for the atlas). -/
def egBigImage : ImageObj := ⟨600, 600, false, none, false⟩

/-- Fresh engine knowing one big client image. -/
def egFreshBig : Engine := initEngine 800 600 4096 [(0, egBigImage)] []

/-- The engine after successfully resolving the big image once (it is
now in the dedicated-texture cache and memoized). -/
def egCachedEngine : Engine :=
  match getTexture 0 true true egFreshBig (some (.image 0)) with
  | .ok (_, e) => e
  | .error _ => egFreshBig

/-- The same engine after the client flags the image dirty
(`image._needsUpdate = true`). -/
def egDirtyEngine : Engine :=
  setImg egCachedEngine 0 { getImg egCachedEngine 0 with needsUpdate := true }

/-- Counterexample to C7 as stated: the re-upload of an already-cached
texture whose image is flagged dirty is *not* guarded by try/catch — if
that `texImage2D` throws, `getTexture` propagates the exception instead
of resolving to the white fallback. -/
theorem c7_counterexample :
    getTexture 1 true false egDirtyEngine (some (.image 0)) = .error () := by
  rfl

/-- `_addToAtlas` touches only the atlas fields (and the write log);
dedicated caches, images, and identity fields are untouched. -/
theorem addToAtlas_preserves (aOk : Bool) (e : Engine) (id : ℕ) :
    (addToAtlas aOk e id).2.textureCache = e.textureCache ∧
    (addToAtlas aOk e id).2.textureUsage = e.textureUsage ∧
    (addToAtlas aOk e id).2.images = e.images ∧
    (addToAtlas aOk e id).2.whiteTexture = e.whiteTexture ∧
    (addToAtlas aOk e id).2.maxTextureCacheSize = e.maxTextureCacheSize ∧
    (addToAtlas aOk e id).2.nextTex = e.nextTex ∧
    (addToAtlas aOk e id).2.atlasTexture = e.atlasTexture ∧
    (addToAtlas aOk e id).2.stateStack = e.stateStack := by
  unfold addToAtlas
  dsimp only
  (repeat' split) <;> simp

/-- The dedicated path returns `.ok` unless the image is already cached,
flagged dirty, and the (unguarded) re-upload fails. -/
theorem getTextureDedicated_isOk (now : ℕ) (tOk : Bool) (e : Engine) (i : ℕ)
    (h : mapGet e.textureCache i = none ∨ (getImg e i).needsUpdate = false ∨ tOk = true) :
    (getTextureDedicated now tOk e i).isOk = true := by
  unfold getTextureDedicated
  dsimp only
  (repeat' split) <;> simp_all [Except.isOk, Except.toBool]

/-- C7 (amended): when the *initial* upload of a new dedicated texture
throws, `getTexture` catches it and returns the 1×1 opaque-white
fallback texture, leaving every cache unpolluted (only the leaked
texture-id counter advances); and the dirty re-upload of an
already-cached dedicated texture is the *only* path in `getTexture` that
can propagate an upload exception. -/
theorem c7_upload_failure (now : ℕ) (aOk : Bool) (e : Engine) (id : ℕ) (img : ImageObj) :
    (mapGet e.images id = some img → img.glTextureInfo = none →
     mapGet e.atlasCache id = none → 512 < img.width →
     mapGet e.textureCache id = none → e.textureCache.length < e.maxTextureCacheSize →
     getTexture now aOk false e (some (.image id)) =
       .ok (.tex e.whiteTexture, { e with nextTex := e.nextTex + 1 })) ∧
    (∀ (tOk : Bool) (i : ℕ),
      (mapGet e.textureCache i = none ∨ (getImg e i).needsUpdate = false ∨ tOk = true) →
      (getTexture now aOk tOk e (some (.image i))).isOk = true) ∧
    (∀ (tOk : Bool) (t : Tex), getTexture now aOk tOk e (some (.rawTex t)) = .ok (.tex t, e)) ∧
    (∀ tOk : Bool, getTexture now aOk tOk e none = .ok (.tex e.whiteTexture, e)) := by
  refine ⟨?_, ?_, fun _ _ => rfl, fun _ => rfl⟩
  · intro himg hmemo hatlas hbig hcache hsize
    have himg' : getImg e id = img := by simp [getImg, himg]
    have helig : ¬(0 < img.width ∧ 0 < img.height ∧ img.width ≤ 512 ∧ img.height ≤ 512 ∧
        ¬img.disableAutoAtlas = true) := by
      rintro ⟨_, _, hle, _, _⟩
      omega
    have hclean : ¬(e.maxTextureCacheSize ≤ e.textureCache.length) :=
      Nat.not_le.mpr hsize
    simp [getTexture, himg', hmemo, hatlas, getTextureDedicated, hcache, helig, hclean]
    intro _ _ hle _ _
    omega
  · intro tOk i hdisj
    have hded : ∀ e' : Engine, e'.textureCache = e.textureCache → e'.images = e.images →
        (getTextureDedicated now tOk e' i).isOk = true := by
      intro e' hc hi
      apply getTextureDedicated_isOk
      rw [hc]
      rw [show getImg e' i = getImg e i from by rw [getImg, getImg, hi]]
      exact hdisj
    unfold getTexture
    dsimp only
    (repeat' split) <;>
      first
        | exact hded _ rfl rfl
        | (rename_i e' heqAdd
           have hp := addToAtlas_preserves aOk e i
           rw [heqAdd] at hp
           exact hded e' hp.1 hp.2.2.1)
        | simp [Except.isOk, Except.toBool]

/-- Witness for C7 (amended): a failing initial upload of the 600×600
image resolves to the white texture with no cache pollution. -/
theorem c7_witness :
    getTexture 0 true false egFreshBig (some (.image 0)) =
      .ok (.tex egFreshBig.whiteTexture, { egFreshBig with nextTex := egFreshBig.nextTex + 1 }) :=
  (c7_upload_failure 0 true egFreshBig 0 egBigImage).1 rfl rfl rfl (by decide) rfl (by decide)

/-! ## Claim C8 — damage-number time windowing, envelope and scenario -/

/-- One glyph vertex of the scenario
`spawn("12", x=100, y=100, vx=50, vy=−200, t0=0, d=1.0, size=24)`
(base scale 24/64; glyph offsets do not affect windowing/envelope). -/
def dnScenarioVert : DNVertex :=
  ⟨0, 0, 0, 0, 100, 100, 0, 0, 50, -200, 0, 1, 24 / 64, 1, 1, 1, 1⟩

/-- Scenario uniforms at evaluation time `t`. -/
def dnScenarioUniforms (t : ℚ) : DNUniforms := ⟨800, 600, 1, t, 0, 0, 800⟩

/-- Counterexample to C8 as stated: at `t = 1.05 > d = 1.0` the
evaluator does *not* yield the off-screen sentinel — the sentinel
requires `t > d + 0.1 = 1.1`, so at 1.05 the glyph is still evaluated
on-screen (with negative fade alpha). -/
theorem c8_counterexample :
    dnEval mathZero (dnScenarioUniforms 1.05) dnScenarioVert ≠ DNOut.sentinel := by
  intro h
  norm_num [dnEval, dnScenarioUniforms, dnScenarioVert, mathZero] at h
  exact DNOut.noConfusion h

/-- C8 (amended): the evaluator yields the sentinel exactly outside the
grace window (ε = 0.05 before spawn, ε = 0.1 after expiry); for
evaluation times inside `[t0, t0+d]` it yields an on-screen position
with alpha ∈ [0, 1]; the scale envelope ramps `0.3→1.0` over the first
20% of the duration, holds, then ramps to 0 over the final 30% (with
the sinusoidal pop only during the first 0.1 s); at `t = t0` the scale
is `0.3 ×` base and fade alpha is full; at `t = 1.05` with `d = 1` the
result is *not* the sentinel (the grace window extends to `d + 0.1`),
while `t = 1.15` yields the sentinel. -/
theorem c8_dn_eval_spec (M : MathImpl) (u : DNUniforms) (vert : DNVertex) :
    (u.currentTime - vert.spawnTime < -0.05 ∨
        vert.duration + 0.1 < u.currentTime - vert.spawnTime →
      dnEval M u vert = .sentinel) ∧
    (0 < vert.duration → 0 ≤ vert.alpha → vert.alpha ≤ 1 →
     vert.spawnTime ≤ u.currentTime → u.currentTime ≤ vert.spawnTime + vert.duration →
      ∃ cx cy sc a fl, dnEval M u vert = .visible cx cy sc a fl ∧ 0 ≤ a ∧ a ≤ 1) ∧
    (0 < vert.duration → 0.1 ≤ u.currentTime - vert.spawnTime →
     0.2 ≤ (u.currentTime - vert.spawnTime) / vert.duration →
     (u.currentTime - vert.spawnTime) / vert.duration ≤ 0.7 →
      ∃ cx cy a fl, dnEval M u vert = .visible cx cy vert.scale a fl) ∧
    (0 < vert.duration → 0.1 ≤ u.currentTime - vert.spawnTime →
     0.7 < (u.currentTime - vert.spawnTime) / vert.duration →
     u.currentTime - vert.spawnTime ≤ vert.duration + 0.1 →
      ∃ cx cy a fl, dnEval M u vert = .visible cx cy
        (vert.scale * (1 - ((u.currentTime - vert.spawnTime) / vert.duration - 0.7) / 0.3))
        a fl) ∧
    (0 < vert.duration → 0.1 ≤ u.currentTime - vert.spawnTime →
     (u.currentTime - vert.spawnTime) / vert.duration < 0.2 →
      ∃ cx cy a fl, dnEval M u vert = .visible cx cy
        (vert.scale * glslMix 0.3 1 (((u.currentTime - vert.spawnTime) / vert.duration) / 0.2))
        a fl) ∧
    (M.msin 0 = 0 → 0 < vert.duration → u.currentTime = vert.spawnTime →
      ∃ cx cy fl, dnEval M u vert = .visible cx cy (vert.scale * 0.3) vert.alpha fl) ∧
    (vert.duration = 1 → u.currentTime - vert.spawnTime = 1.05 →
      dnEval M u vert ≠ .sentinel) ∧
    (vert.duration = 1 → u.currentTime - vert.spawnTime = 1.15 →
      dnEval M u vert = .sentinel) := by
  refine ⟨?_, ?_, ?_, ?_, ?_, ?_, ?_, ?_⟩
  · intro h
    unfold dnEval
    rw [if_pos h]
  · intro hd ha0 ha1 hge hle
    have hwin : ¬(u.currentTime - vert.spawnTime < -0.05 ∨
        vert.duration + 0.1 < u.currentTime - vert.spawnTime) := by
      push_neg
      constructor <;> linarith
    have hmax : max (0 : ℚ) (u.currentTime - vert.spawnTime) =
        u.currentTime - vert.spawnTime := max_eq_right (by linarith)
    have hple : (u.currentTime - vert.spawnTime) / vert.duration ≤ 1 :=
      (div_le_one hd).mpr (by linarith)
    unfold dnEval
    rw [if_neg hwin]
    dsimp only
    rw [hmax]
    set p := (u.currentTime - vert.spawnTime) / vert.duration with hpdef
    refine ⟨_, _, _, _, _, rfl, ?_, ?_⟩
    · apply mul_nonneg _ ha0
      split
      · next hp =>
        have h3 : (p - 0.7) / 0.3 ≤ 1 := by
          rw [div_le_one (by norm_num : (0 : ℚ) < 0.3)]
          linarith
        linarith
      · norm_num
    · apply mul_le_one₀ _ ha0 ha1
      split
      · next hp =>
        have h4 : 0 ≤ (p - 0.7) / 0.3 := div_nonneg (by linarith) (by norm_num)
        linarith
      · exact le_refl 1
  · intro hd ht hp1 hp2
    have hwin : ¬(u.currentTime - vert.spawnTime < -0.05 ∨
        vert.duration + 0.1 < u.currentTime - vert.spawnTime) := by
      push_neg
      have : u.currentTime - vert.spawnTime ≤ 0.7 * vert.duration := by
        have := (div_le_iff₀ hd).mp hp2
        linarith
      constructor <;> nlinarith
    have hmax : max (0 : ℚ) (u.currentTime - vert.spawnTime) =
        u.currentTime - vert.spawnTime := max_eq_right (by linarith)
    unfold dnEval
    rw [if_neg hwin]
    dsimp only
    rw [hmax]
    rw [if_neg (by push_neg; linarith : ¬((u.currentTime - vert.spawnTime) / vert.duration < 0.2)),
        if_neg (by push_neg; linarith : ¬(0.7 < (u.currentTime - vert.spawnTime) / vert.duration)),
        if_neg (by push_neg; linarith : ¬(u.currentTime - vert.spawnTime < 0.1))]
    exact ⟨_, _, _, _, rfl⟩
  · intro hd ht hp hle
    have hwin : ¬(u.currentTime - vert.spawnTime < -0.05 ∨
        vert.duration + 0.1 < u.currentTime - vert.spawnTime) := by
      push_neg
      constructor <;> linarith
    have hmax : max (0 : ℚ) (u.currentTime - vert.spawnTime) =
        u.currentTime - vert.spawnTime := max_eq_right (by linarith)
    unfold dnEval
    rw [if_neg hwin]
    dsimp only
    rw [hmax]
    rw [if_neg (by push_neg; linarith : ¬((u.currentTime - vert.spawnTime) / vert.duration < 0.2)),
        if_pos hp,
        if_neg (by push_neg; linarith : ¬(u.currentTime - vert.spawnTime < 0.1))]
    exact ⟨_, _, _, _, rfl⟩
  · intro hd ht hp
    have h02 : (0.1 : ℚ) ≤ 0.2 * vert.duration := by
      have := (div_lt_iff₀ hd).mp hp
      nlinarith
    have hwin : ¬(u.currentTime - vert.spawnTime < -0.05 ∨
        vert.duration + 0.1 < u.currentTime - vert.spawnTime) := by
      push_neg
      have := (div_lt_iff₀ hd).mp hp
      constructor <;> nlinarith
    have hmax : max (0 : ℚ) (u.currentTime - vert.spawnTime) =
        u.currentTime - vert.spawnTime := max_eq_right (by linarith)
    unfold dnEval
    rw [if_neg hwin]
    dsimp only
    rw [hmax]
    rw [if_pos hp,
        if_neg (by push_neg; linarith : ¬(u.currentTime - vert.spawnTime < 0.1))]
    exact ⟨_, _, _, _, rfl⟩
  · intro hsin hd heq
    have ht0 : u.currentTime - vert.spawnTime = 0 := by linarith
    have hwin : ¬(u.currentTime - vert.spawnTime < -0.05 ∨
        vert.duration + 0.1 < u.currentTime - vert.spawnTime) := by
      push_neg
      constructor <;> linarith
    unfold dnEval
    rw [if_neg hwin]
    dsimp only
    rw [ht0]
    have hmax : max (0 : ℚ) 0 = (0 : ℚ) := max_self 0
    rw [hmax, zero_div]
    rw [if_pos (by norm_num : (0 : ℚ) < 0.2),
        if_pos (by norm_num : (0 : ℚ) < 0.1),
        if_neg (by norm_num : ¬((0.7 : ℚ) < 0))]
    have hs : M.msin (0 * 10 * 1.57) = 0 := by
      rw [zero_mul, zero_mul, hsin]
    rw [hs]
    norm_num [glslMix]
  · intro hdur ht
    unfold dnEval
    rw [if_neg (by rw [ht, hdur]; norm_num)]
    dsimp only
    simp
  · intro hdur ht
    unfold dnEval
    rw [if_pos (by rw [ht, hdur]; norm_num)]

/-- Witness for C8 (amended) on the scenario inputs. -/
theorem c8_witness :
    (∃ cx cy fl, dnEval mathZero (dnScenarioUniforms 0) dnScenarioVert =
      .visible cx cy (dnScenarioVert.scale * 0.3) dnScenarioVert.alpha fl) ∧
    dnEval mathZero (dnScenarioUniforms 1.15) dnScenarioVert = DNOut.sentinel ∧
    dnEval mathZero (dnScenarioUniforms 1.05) dnScenarioVert ≠ DNOut.sentinel := by
  refine ⟨?_, ?_, ?_⟩
  · exact (c8_dn_eval_spec mathZero (dnScenarioUniforms 0) dnScenarioVert).2.2.2.2.2.1
      rfl (by norm_num [dnScenarioVert]) (by norm_num [dnScenarioUniforms, dnScenarioVert])
  · exact (c8_dn_eval_spec mathZero (dnScenarioUniforms 1.15) dnScenarioVert).2.2.2.2.2.2.2
      (by norm_num [dnScenarioVert]) (by norm_num [dnScenarioUniforms, dnScenarioVert])
  · exact (c8_dn_eval_spec mathZero (dnScenarioUniforms 1.05) dnScenarioVert).2.2.2.2.2.2.1
      (by norm_num [dnScenarioVert]) (by norm_num [dnScenarioUniforms, dnScenarioVert])

/-! ## Claims C1 and C2 — batch correctness and flush-on-texture-change -/

/-- One quad enqueue through any of the four single-quad operations. -/
inductive QuadOp where
  | opImage (ref : ImgRef) (sx sy sw sh dx dy dw dh : ℚ)
  | opTexture (src : TexSource) (x y w h u0 v0 u1 v1 rotation alpha : ℚ)
      (flipX flipY : Bool) (tintR tintG tintB fl : ℚ)
  | opSprite (ref : ImgRef) (x y w h rotation alpha : ℚ) (tint : Option RGBA)
  | opRect (x y w h : ℚ) (rgba : RGBA) (alpha : ℚ)
deriving DecidableEq, Repr

def applyQuadOp (now : ℕ) (M : MathImpl) (aOk tOk : Bool) (e : Engine) :
    QuadOp → Except Unit Engine
  | .opImage ref sx sy sw sh dx dy dw dh =>
      drawImage now aOk tOk e (some ref) sx sy sw sh dx dy dw dh
  | .opTexture src x y w h u0 v0 u1 v1 rot alpha fx fy tr tg tb fl =>
      drawTexture now M aOk tOk e (some src) x y w h u0 v0 u1 v1 rot alpha fx fy tr tg tb fl
  | .opSprite ref x y w h rot alpha tint =>
      drawSpriteFast now M aOk tOk e (some ref) x y w h rot alpha tint
  | .opRect x y w h rgba alpha => .ok (drawRectRaw e x y w h rgba alpha)

def runQuadOps (now : ℕ) (M : MathImpl) (aOk tOk : Bool) (e : Engine)
    (ops : List QuadOp) : Except Unit Engine :=
  ops.foldlM (applyQuadOp now M aOk tOk) e

/-- An `ImgRef` resolves *purely* when `getTexture` returns without
touching the engine: a raw texture, or an image with a clean memoized
`_glTextureInfo`. -/
@[reducible] def PureResolve (e : Engine) : ImgRef → Prop
  | .rawTex _ => True
  | .image id => (getImg e id).glTextureInfo.isSome = true ∧ (getImg e id).needsUpdate = false

/-- The value such a pure resolution returns. -/
def pureRetI (e : Engine) : ImgRef → GetTexRet
  | .rawTex t => .tex t
  | .image id =>
    match (getImg e id).glTextureInfo with
    | some memo => .txinfo memo
    | none => .tex e.whiteTexture

theorem getTexture_pure (now : ℕ) (aOk tOk : Bool) (e : Engine) (ref : ImgRef)
    (h : PureResolve e ref) :
    getTexture now aOk tOk e (some ref) = .ok (pureRetI e ref, e) := by
  cases ref with
  | rawTex t => rfl
  | image id =>
    obtain ⟨h1, h2⟩ := h
    obtain ⟨memo, hm⟩ := Option.isSome_iff_exists.mp h1
    simp [getTexture, pureRetI, hm, h2]

@[reducible] def PureResolveS (e : Engine) : TexSource → Prop
  | .rawTex _ => True
  | .texInfo _ => True
  | .image id => PureResolve e (.image id)

def pureRetS (e : Engine) : TexSource → GetTexRet
  | .rawTex t => .tex t
  | .texInfo ti => .txinfo ti
  | .image id => pureRetI e (.image id)

/-- The texture and final UV window `drawTexture`/`_drawTextureDirect`
derive from a resolution result. -/
def remapUV (ret : GetTexRet) (u0 v0 u1 v1 : ℚ) : Tex × ℚ × ℚ × ℚ × ℚ :=
  match ret with
  | .txinfo ti =>
    match ti.uv with
    | some uv =>
      let uw := uv.u1 - uv.u0
      let vh := uv.v1 - uv.v0
      (ti.texture, uv.u0 + u0 * uw, uv.v0 + v0 * vh, uv.u0 + u1 * uw, uv.v0 + v1 * vh)
    | none => (ti.texture, u0, v0, u1, v1)
  | .tex t => (t, u0, v0, u1, v1)

theorem resolveTexSource_pure (now : ℕ) (aOk tOk : Bool) (e : Engine) (src : TexSource)
    (u0 v0 u1 v1 : ℚ) (h : PureResolveS e src) :
    resolveTexSource now aOk tOk e src u0 v0 u1 v1 =
      .ok (remapUV (pureRetS e src) u0 v0 u1 v1, e) := by
  cases src with
  | rawTex t => rfl
  | texInfo ti =>
    cases hti : ti.uv <;> simp [resolveTexSource, remapUV, pureRetS, hti]
  | image id =>
    obtain ⟨h1, h2⟩ := h
    obtain ⟨memo, hm⟩ := Option.isSome_iff_exists.mp h1
    have hg : getTexture now aOk tOk e (some (.image id)) = .ok (.txinfo memo, e) := by
      simp [getTexture, hm, h2]
    unfold resolveTexSource
    dsimp only
    rw [hg]
    dsimp only [Bind.bind, Except.bind]
    cases huv : memo.uv <;> simp [remapUV, pureRetS, pureRetI, hm, huv]

/-- The texture a pure quad enqueue binds. -/
def texOfOp (e : Engine) : QuadOp → Tex
  | .opImage ref _ _ _ _ _ _ _ _ => (pureRetI e ref).texOf
  | .opTexture src _ _ _ _ _ _ _ _ _ _ _ _ _ _ _ _ => (pureRetS e src).texOf
  | .opSprite ref _ _ _ _ _ _ _ => (pureRetI e ref).texOf
  | .opRect _ _ _ _ _ _ => e.whiteTexture

/-- Shadow rendering disabled in the current state (the `drawImage`
shadow pre-quad is not emitted). -/
@[reducible] def ShadowOff (e : Engine) : Prop :=
  ¬(0 < (topState e).shadowBlur ∧ (topState e).shadowColor ≠ "transparent" ∧
    (topState e).shadowColor ≠ "rgba(0,0,0,0)")

/-- A quad enqueue that resolves purely (and, for `drawImage`, draws no
shadow quad). -/
@[reducible] def PureOp (e : Engine) : QuadOp → Prop
  | .opImage ref _ _ _ _ _ _ _ _ => PureResolve e ref ∧ ShadowOff e
  | .opTexture src _ _ _ _ _ _ _ _ _ _ _ _ _ _ _ _ => PureResolveS e src
  | .opSprite ref _ _ _ _ _ _ _ => PureResolve e ref
  | .opRect _ _ _ _ _ _ => True

/-- The four vertices a pure quad enqueue appends, as a function of the
un-batched engine data (specification projection, validated against
each draw operation by `applyQuadOp_pure`). -/
def quadVertsOf (M : MathImpl) (e : Engine) : QuadOp → List Vertex
  | .opRect x y w h rgba alpha =>
    let m := (topState e).matrix
    let x1 := x + w
    let y1 := y + h
    [addVertex (m.m0 * x + m.m2 * y + m.m4) (m.m1 * x + m.m3 * y + m.m5) 0 0 alpha rgba,
     addVertex (m.m0 * x1 + m.m2 * y + m.m4) (m.m1 * x1 + m.m3 * y + m.m5) 1 0 alpha rgba,
     addVertex (m.m0 * x1 + m.m2 * y1 + m.m4) (m.m1 * x1 + m.m3 * y1 + m.m5) 1 1 alpha rgba,
     addVertex (m.m0 * x + m.m2 * y1 + m.m4) (m.m1 * x + m.m3 * y1 + m.m5) 0 1 alpha rgba]
  | .opImage ref sx sy sw sh dx dy dw dh =>
    let ret := pureRetI e ref
    let s := topState e
    let m := s.matrix
    let iw : ℚ := match ref with
      | .image id => ((getImg e id).width : ℚ)
      | .rawTex _ => 0
    let ih : ℚ := match ref with
      | .image id => ((getImg e id).height : ℚ)
      | .rawTex _ => 0
    let uvq : ℚ × ℚ × ℚ × ℚ :=
      match ret with
      | .txinfo ti =>
        match ti.uv with
        | some uv =>
          let iW := 1 / ti.width
          let iH := 1 / ti.height
          let aW := uv.u1 - uv.u0
          let aH := uv.v1 - uv.v0
          (uv.u0 + (sx * iW) * aW, uv.v0 + (sy * iH) * aH,
           uv.u0 + ((sx + sw) * iW) * aW, uv.v0 + ((sy + sh) * iH) * aH)
        | none => (sx / iw, sy / ih, (sx + sw) / iw, (sy + sh) / ih)
      | .tex _ => (sx / iw, sy / ih, (sx + sw) / iw, (sy + sh) / ih)
    let u0 := uvq.1
    let v0 := uvq.2.1
    let u1 := uvq.2.2.1
    let v1 := uvq.2.2.2
    let rgba := if 0 < s.flash then (⟨1, 1, 1, 10⟩ : RGBA) else whiteRGBA
    let x1 := dx + dw
    let y1 := dy + dh
    [addVertex (m.m0 * dx + m.m2 * dy + m.m4) (m.m1 * dx + m.m3 * dy + m.m5) u0 v0 s.alpha rgba,
     addVertex (m.m0 * x1 + m.m2 * dy + m.m4) (m.m1 * x1 + m.m3 * dy + m.m5) u1 v0 s.alpha rgba,
     addVertex (m.m0 * x1 + m.m2 * y1 + m.m4) (m.m1 * x1 + m.m3 * y1 + m.m5) u1 v1 s.alpha rgba,
     addVertex (m.m0 * dx + m.m2 * y1 + m.m4) (m.m1 * dx + m.m3 * y1 + m.m5) u0 v1 s.alpha rgba]
  | .opTexture src x y w h u0 v0 u1 v1 rot alpha fx fy tr tg tb fl =>
    let res := remapUV (pureRetS e src) u0 v0 u1 v1
    let fU0 := if fx then res.2.2.2.1 else res.2.1
    let fU1 := if fx then res.2.1 else res.2.2.2.1
    let fV0 := if fy then res.2.2.2.2 else res.2.2.1
    let fV1 := if fy then res.2.2.1 else res.2.2.2.2
    let s := topState e
    let m := s.matrix
    let fA := alpha * s.alpha
    let rgba : RGBA := ⟨tr, tg, tb, if 0 < fl then 10 else 1⟩
    if rot = 0 then
      let x1 := x + w
      let y1 := y + h
      [addVertex (m.m0 * x + m.m2 * y + m.m4) (m.m1 * x + m.m3 * y + m.m5) fU0 fV0 fA rgba,
       addVertex (m.m0 * x1 + m.m2 * y + m.m4) (m.m1 * x1 + m.m3 * y + m.m5) fU1 fV0 fA rgba,
       addVertex (m.m0 * x1 + m.m2 * y1 + m.m4) (m.m1 * x1 + m.m3 * y1 + m.m5) fU1 fV1 fA rgba,
       addVertex (m.m0 * x + m.m2 * y1 + m.m4) (m.m1 * x + m.m3 * y1 + m.m5) fU0 fV1 fA rgba]
    else
      let c := M.mcos rot
      let sn := M.msin rot
      let hw := w / 2
      let hh := h / 2
      let cx := x + hw
      let cy := y + hh
      let rx0 := -hw * c + hh * sn + cx
      let ry0 := -hw * sn - hh * c + cy
      let rx1 := hw * c + hh * sn + cx
      let ry1 := hw * sn - hh * c + cy
      let rx2 := hw * c - hh * sn + cx
      let ry2 := hw * sn + hh * c + cy
      let rx3 := -hw * c - hh * sn + cx
      let ry3 := -hw * sn + hh * c + cy
      [addVertex (m.m0 * rx0 + m.m2 * ry0 + m.m4) (m.m1 * rx0 + m.m3 * ry0 + m.m5) fU0 fV0 fA rgba,
       addVertex (m.m0 * rx1 + m.m2 * ry1 + m.m4) (m.m1 * rx1 + m.m3 * ry1 + m.m5) fU1 fV0 fA rgba,
       addVertex (m.m0 * rx2 + m.m2 * ry2 + m.m4) (m.m1 * rx2 + m.m3 * ry2 + m.m5) fU1 fV1 fA rgba,
       addVertex (m.m0 * rx3 + m.m2 * ry3 + m.m4) (m.m1 * rx3 + m.m3 * ry3 + m.m5) fU0 fV1 fA rgba]
  | .opSprite ref x y w h rot alpha tint =>
    let ret := pureRetI e ref
    let uv : UVRect :=
      match ret with
      | .txinfo ti => ti.uv.getD ⟨0, 0, 1, 1⟩
      | .tex _ => ⟨0, 0, 1, 1⟩
    let hw := w * 0.5
    let hh := h * 0.5
    let c := M.mcos rot
    let sn := M.msin rot
    let lx0 := -hw * c + hh * sn + x
    let ly0 := -hw * sn - hh * c + y
    let lx1 := hw * c + hh * sn + x
    let ly1 := hw * sn - hh * c + y
    let lx2 := hw * c - hh * sn + x
    let ly2 := hw * sn + hh * c + y
    let lx3 := -hw * c - hh * sn + x
    let ly3 := -hw * sn + hh * c + y
    let s := topState e
    let m := s.matrix
    let rgba := tint.getD whiteRGBA
    let fA := alpha * s.alpha
    let isFlash := 5 < rgba.a
    let cA : ℚ := if isFlash then 1 else min 1 rgba.a
    let ca := fA * cA
    let ff : ℚ := if isFlash then 2 else min 1 ca
    [⟨m.m0 * lx0 + m.m2 * ly0 + m.m4, m.m1 * lx0 + m.m3 * ly0 + m.m5, uv.u0, uv.v0, ca, rgba.r, rgba.g, rgba.b, ff⟩,
     ⟨m.m0 * lx1 + m.m2 * ly1 + m.m4, m.m1 * lx1 + m.m3 * ly1 + m.m5, uv.u1, uv.v0, ca, rgba.r, rgba.g, rgba.b, ff⟩,
     ⟨m.m0 * lx2 + m.m2 * ly2 + m.m4, m.m1 * lx2 + m.m3 * ly2 + m.m5, uv.u1, uv.v1, ca, rgba.r, rgba.g, rgba.b, ff⟩,
     ⟨m.m0 * lx3 + m.m2 * ly3 + m.m4, m.m1 * lx3 + m.m3 * ly3 + m.m5, uv.u0, uv.v1, ca, rgba.r, rgba.g, rgba.b, ff⟩]

theorem stateStack_bind (e : Engine) (t : Tex) :
    (bindTextureFor e t).stateStack = e.stateStack := by
  unfold bindTextureFor
  (repeat' split) <;> simp [stateStack_flush]

theorem topState_bind (e : Engine) (t : Tex) :
    topState (bindTextureFor e t) = topState e := by
  simp [topState, stateStack_bind]

theorem images_bind (e : Engine) (t : Tex) :
    (bindTextureFor e t).images = e.images := by
  unfold bindTextureFor
  (repeat' split) <;> simp [images_flush]

theorem getImg_bind (e : Engine) (t : Tex) (id : ℕ) :
    getImg (bindTextureFor e t) id = getImg e id := by
  simp [getImg, images_bind]

theorem maxBatchSize_bind (e : Engine) (t : Tex) :
    (bindTextureFor e t).maxBatchSize = e.maxBatchSize := by
  unfold bindTextureFor
  (repeat' split) <;> simp [maxBatchSize_flush]

/-- The `_drawRect` guard is the shared bind guard (its unconditional
flush is a no-op on an empty queue). -/
theorem bindTextureFor_eq_unconditional (e : Engine) (t : Tex) :
    bindTextureFor e t =
      if e.currentTexture ≠ some t ∨ e.maxBatchSize ≤ e.batchCount then
        { flush e with currentTexture := some t } else e := by
  unfold bindTextureFor
  split
  · split
    · rfl
    · next h => rw [flush_of_empty e (by omega)]
  · rfl

theorem bindTextureFor_noop (e : Engine) (t : Tex) (hcur : e.currentTexture = some t)
    (hlt : e.batchCount < e.maxBatchSize) : bindTextureFor e t = e := by
  unfold bindTextureFor
  rw [if_neg]
  push_neg
  exact ⟨hcur, hlt⟩

theorem bindTextureFor_of_empty (e : Engine) (t : Tex) (hb : e.batchCount = 0) :
    bindTextureFor e t = { e with currentTexture := some t } := by
  unfold bindTextureFor
  split
  · rw [if_neg (by omega)]
  · next hcond =>
    push_neg at hcond
    have hcur : e.currentTexture = some t := hcond.1
    calc e = { e with currentTexture := e.currentTexture } := rfl
    _ = { e with currentTexture := some t } := by rw [hcur]

theorem remapUV_fst (ret : GetTexRet) (a b c d : ℚ) :
    (remapUV ret a b c d).1 = ret.texOf := by
  cases ret with
  | tex t => rfl
  | txinfo ti =>
    cases h : ti.uv <;> simp [remapUV, GetTexRet.texOf, h]

/-- A pure quad enqueue is exactly: bind the operation's texture
(flushing per the guard), then append its four vertices and count one
quad. -/
theorem applyQuadOp_pure (now : ℕ) (M : MathImpl) (aOk tOk : Bool) (e : Engine)
    (op : QuadOp) (hpure : PureOp e op) :
    applyQuadOp now M aOk tOk e op =
      .ok { bindTextureFor e (texOfOp e op) with
            batchCount := (bindTextureFor e (texOfOp e op)).batchCount + 1,
            pendingVerts := (bindTextureFor e (texOfOp e op)).pendingVerts ++
              quadVertsOf M e op } := by
  cases op with
  | opRect x y w h rgba alpha =>
    show Except.ok (drawRectRaw e x y w h rgba alpha) = _
    unfold drawRectRaw
    rw [← bindTextureFor_eq_unconditional]
    simp [pushQuad, quadVertsOf, texOfOp, topState_bind]
  | opImage ref sx sy sw sh dx dy dw dh =>
    obtain ⟨hres, hshadow⟩ := hpure
    show drawImage now aOk tOk e (some ref) sx sy sw sh dx dy dw dh = _
    unfold drawImage
    dsimp only
    rw [getTexture_pure now aOk tOk e ref hres]
    dsimp only [Bind.bind, Except.bind]
    cases ref with
    | rawTex t =>
      simp [pureRetI, pushQuad, quadVertsOf, texOfOp, GetTexRet.texOf, topState_bind,
            getImg_bind, hshadow]
    | image id =>
      obtain ⟨memo, hm⟩ := Option.isSome_iff_exists.mp hres.1
      cases huv : memo.uv <;>
        simp [pureRetI, hm, huv, pushQuad, quadVertsOf, texOfOp, GetTexRet.texOf,
              topState_bind, getImg_bind, hshadow]
  | opTexture src x y w h u0 v0 u1 v1 rot alpha fx fy tr tg tb fl =>
    show drawTexture now M aOk tOk e (some src) x y w h u0 v0 u1 v1 rot alpha fx fy tr tg tb fl = _
    unfold drawTexture
    dsimp only
    rw [resolveTexSource_pure now aOk tOk e src u0 v0 u1 v1 hpure]
    dsimp only [Bind.bind, Except.bind]
    rw [remapUV_fst]
    by_cases hr : rot = 0 <;>
      simp [hr, pushQuad, quadVertsOf, texOfOp, topState_bind]
  | opSprite ref x y w h rot alpha tint =>
    show drawSpriteFast now M aOk tOk e (some ref) x y w h rot alpha tint = _
    unfold drawSpriteFast
    dsimp only
    rw [getTexture_pure now aOk tOk e ref hpure]
    dsimp only [Bind.bind, Except.bind]
    cases hret : pureRetI e ref with
    | tex t =>
      simp [hret, pushQuad, quadVertsOf, texOfOp, GetTexRet.texOf, topState_bind]
    | txinfo ti =>
      simp [hret, pushQuad, quadVertsOf, texOfOp, GetTexRet.texOf, topState_bind]

/-- Folding pure same-texture enqueues over a batch that already binds
that texture appends each operation's quad in call order, with no GPU
submission. -/
theorem runQuadOps_pure (now : ℕ) (M : MathImpl) (aOk tOk : Bool) (T : Tex)
    (ops : List QuadOp) :
    ∀ e : Engine, e.currentTexture = some T →
      e.batchCount + ops.length ≤ e.maxBatchSize →
      (∀ op ∈ ops, PureOp e op ∧ texOfOp e op = T) →
      runQuadOps now M aOk tOk e ops =
        .ok { e with batchCount := e.batchCount + ops.length,
                     pendingVerts := e.pendingVerts ++ (ops.map (quadVertsOf M e)).join } := by
  induction ops with
  | nil =>
    intro e hcur hlen hops
    show Except.ok e = _
    simp
  | cons op rest ih =>
    intro e hcur hlen hops
    have hop := hops op (List.mem_cons_self op rest)
    have hlt : e.batchCount < e.maxBatchSize := by
      simp only [List.length_cons] at hlen
      omega
    have hbind : bindTextureFor e (texOfOp e op) = e := by
      rw [hop.2]
      exact bindTextureFor_noop e T hcur hlt
    have hstep := applyQuadOp_pure now M aOk tOk e op hop.1
    rw [hbind] at hstep
    have hgoal1 : runQuadOps now M aOk tOk e (op :: rest) =
        runQuadOps now M aOk tOk
          { e with
            batchCount := e.batchCount + 1,
            pendingVerts := e.pendingVerts ++ quadVertsOf M e op } rest := by
      rw [runQuadOps, List.foldlM_cons, hstep]
      rfl
    have hlen' : ({ e with
        batchCount := e.batchCount + 1,
        pendingVerts := e.pendingVerts ++ quadVertsOf M e op } : Engine).batchCount
        + rest.length ≤ ({ e with
        batchCount := e.batchCount + 1,
        pendingVerts := e.pendingVerts ++ quadVertsOf M e op } : Engine).maxBatchSize := by
      show e.batchCount + 1 + rest.length ≤ e.maxBatchSize
      simp only [List.length_cons] at hlen
      omega
    have hops' : ∀ op' ∈ rest,
        PureOp { e with
          batchCount := e.batchCount + 1,
          pendingVerts := e.pendingVerts ++ quadVertsOf M e op } op' ∧
        texOfOp { e with
          batchCount := e.batchCount + 1,
          pendingVerts := e.pendingVerts ++ quadVertsOf M e op } op' = T := by
      intro op' hmem
      exact hops op' (List.mem_cons_of_mem _ hmem)
    rw [hgoal1, ih { e with
      batchCount := e.batchCount + 1,
      pendingVerts := e.pendingVerts ++ quadVertsOf M e op }
      (show ({ e with
        batchCount := e.batchCount + 1,
        pendingVerts := e.pendingVerts ++ quadVertsOf M e op } : Engine).currentTexture =
          some T from hcur) hlen' hops']
    have hq : rest.map (quadVertsOf M { e with
        batchCount := e.batchCount + 1,
        pendingVerts := e.pendingVerts ++ quadVertsOf M e op }) =
        rest.map (quadVertsOf M e) := rfl
    congr 1
    rw [hq]
    simp [List.append_assoc]
    omega

theorem currentTexture_flush_of_pos (e : Engine) (h : 0 < e.batchCount) :
    (flush e).currentTexture = none := by
  unfold flush
  rw [if_neg (by omega)]

theorem pendingVerts_flush_of_pos (e : Engine) (h : 0 < e.batchCount) :
    (flush e).pendingVerts = [] := by
  unfold flush
  rw [if_neg (by omega)]

theorem buildIndices_succ (n : ℕ) :
    buildIndices (n + 1) =
      buildIndices n ++ [4*n, 4*n+1, 4*n+2, 4*n, 4*n+2, 4*n+3] := by
  unfold buildIndices
  rw [List.range_succ, List.flatMap_append]
  simp

theorem length_buildIndices (n : ℕ) : (buildIndices n).length = 6 * n := by
  induction n with
  | zero => rfl
  | succ k ih =>
    rw [buildIndices_succ, List.length_append, ih]
    show 6 * k + 6 = 6 * (k + 1)
    omega

theorem buildIndices_slice (maxQ i : ℕ) (h : i < maxQ) :
    ((buildIndices maxQ).drop (6 * i)).take 6 =
      [4*i, 4*i+1, 4*i+2, 4*i, 4*i+2, 4*i+3] := by
  induction maxQ with
  | zero => omega
  | succ n ih =>
    rw [buildIndices_succ]
    rcases Nat.lt_succ_iff_lt_or_eq.mp h with hlt | heq
    · rw [List.drop_append_of_le_length (by rw [length_buildIndices]; omega)]
      rw [List.take_append_of_le_length (by
        rw [List.length_drop, length_buildIndices]; omega)]
      exact ih hlt
    · subst heq
      have hlen : 6 * i = (buildIndices i).length := (length_buildIndices i).symm
      rw [hlen, List.drop_left]
      rfl

/-- C1: for any sequence of N same-texture pure quad enqueues (via
`drawImage`, `drawTexture`, `drawSpriteFast` or `_drawRect`) with
N ≤ 8192 starting from an empty batch, followed by one explicit
`flush()`, exactly one GPU draw submission is issued, covering N×4
vertices in call order under N×6 indices of the precomputed static
winding `0,1,2,0,2,3`; `flush()` on an empty queue is a no-op, and
after the non-empty flush the quad count is 0 and the bound texture is
unset. -/
theorem c1_batch_correctness :
    (∀ e : Engine, e.batchCount = 0 → flush e = e) ∧
    (∀ maxQ i : ℕ, i < maxQ →
      ((buildIndices maxQ).drop (6 * i)).take 6 =
        [4*i, 4*i+1, 4*i+2, 4*i, 4*i+2, 4*i+3]) ∧
    (∀ (now : ℕ) (M : MathImpl) (aOk tOk : Bool) (e : Engine) (T : Tex)
        (ops : List QuadOp),
      e.batchCount = 0 → e.pendingVerts = [] → e.maxBatchSize = 8192 →
      ops ≠ [] → ops.length ≤ 8192 →
      (∀ op ∈ ops, PureOp e op ∧ texOfOp e op = T) →
      ∃ e1, runQuadOps now M aOk tOk e ops = .ok e1 ∧
        e1.gpu = e.gpu ∧
        e1.batchCount = ops.length ∧
        e1.pendingVerts = (ops.map (quadVertsOf M e)).join ∧
        (flush e1).gpu = e.gpu ++
          [.draw { texture := T, quadCount := ops.length,
                   indexCount := ops.length * 6,
                   verts := (ops.map (quadVertsOf M e)).join, blend := e.glBlend }] ∧
        (flush e1).batchCount = 0 ∧ (flush e1).currentTexture = none) := by
  refine ⟨flush_of_empty, buildIndices_slice, ?_⟩
  intro now M aOk tOk e T ops hb hpend hmax hne hlen hops
  obtain ⟨op, rest, rfl⟩ : ∃ op rest, ops = op :: rest := by
    cases ops with
    | nil => exact absurd rfl hne
    | cons op rest => exact ⟨op, rest, rfl⟩
  have hop := hops op (List.mem_cons_self op rest)
  have hbind : bindTextureFor e (texOfOp e op) = { e with currentTexture := some T } := by
    rw [hop.2]
    exact bindTextureFor_of_empty e T hb
  have hstep := applyQuadOp_pure now M aOk tOk e op hop.1
  rw [hbind] at hstep
  have hstepE : applyQuadOp now M aOk tOk e op =
      .ok { e with
        currentTexture := some T,
        batchCount := e.batchCount + 1,
        pendingVerts := e.pendingVerts ++ quadVertsOf M e op } := hstep
  have h1 : runQuadOps now M aOk tOk e (op :: rest) =
      runQuadOps now M aOk tOk { e with
        currentTexture := some T,
        batchCount := e.batchCount + 1,
        pendingVerts := e.pendingVerts ++ quadVertsOf M e op } rest := by
    rw [runQuadOps, List.foldlM_cons, hstepE]
    rfl
  have h2 := runQuadOps_pure now M aOk tOk T rest
    { e with
      currentTexture := some T,
      batchCount := e.batchCount + 1,
      pendingVerts := e.pendingVerts ++ quadVertsOf M e op }
    rfl
    (by
      show e.batchCount + 1 + rest.length ≤ e.maxBatchSize
      rw [hb, hmax]
      simp only [List.length_cons] at hlen
      omega)
    (fun op' hm => hops op' (List.mem_cons_of_mem _ hm))
  have h3 : runQuadOps now M aOk tOk e (op :: rest) =
      .ok { e with
        currentTexture := some T,
        batchCount := e.batchCount + 1 + rest.length,
        pendingVerts := (e.pendingVerts ++ quadVertsOf M e op) ++
          (rest.map (quadVertsOf M e)).join } := by
    rw [h1, h2]
    rfl
  refine ⟨_, h3, rfl, ?_, ?_, ?_, ?_, ?_⟩
  · show e.batchCount + 1 + rest.length = (op :: rest).length
    rw [hb]
    simp only [List.length_cons]
    omega
  · show (e.pendingVerts ++ quadVertsOf M e op) ++
        (rest.map (quadVertsOf M e)).join =
      ((op :: rest).map (quadVertsOf M e)).join
    rw [hpend]
    simp
  · rw [gpu_flush]
    dsimp only
    rw [if_pos (show (0 : ℕ) < e.batchCount + 1 + rest.length by omega)]
    rw [hpend]
    simp [hb]
    omega
  · exact batchCount_flush_zero _
  · apply currentTexture_flush_of_pos
    show 0 < e.batchCount + 1 + rest.length
    omega


def c1ops : List QuadOp :=
  [QuadOp.opRect 0 0 10 10 ⟨1, 1, 1, 1⟩ 1,
   QuadOp.opRect 20 20 5 5 ⟨1, 0, 0, 1⟩ (1/2)]

theorem c1_witness :
    flush egEngine = egEngine ∧
    ((buildIndices 8192).drop (6*1)).take 6 = [4*1, 4*1+1, 4*1+2, 4*1, 4*1+2, 4*1+3] ∧
    ∃ e1, runQuadOps 0 mathZero true true egEngine c1ops = .ok e1 ∧
      e1.gpu = egEngine.gpu ∧
      e1.batchCount = c1ops.length ∧
      e1.pendingVerts = (c1ops.map (quadVertsOf mathZero egEngine)).join ∧
      (flush e1).gpu = egEngine.gpu ++
        [.draw { texture := egEngine.whiteTexture, quadCount := c1ops.length,
                 indexCount := c1ops.length * 6,
                 verts := (c1ops.map (quadVertsOf mathZero egEngine)).join,
                 blend := egEngine.glBlend }] ∧
      (flush e1).batchCount = 0 ∧ (flush e1).currentTexture = none := by
  refine ⟨c1_batch_correctness.1 egEngine rfl,
    c1_batch_correctness.2.1 8192 1 (by norm_num),
    c1_batch_correctness.2.2 0 mathZero true true egEngine egEngine.whiteTexture
      c1ops rfl rfl rfl (by simp [c1ops]) (by simp [c1ops]) ?_⟩
  intro op hm
  rcases List.mem_cons.mp hm with h | h
  · subst h
    exact ⟨trivial, rfl⟩
  · rcases List.mem_cons.mp h with h' | h'
    · subst h'
      exact ⟨trivial, rfl⟩
    · cases h'


/-! ## Claim C2 — flush on texture change -/

/-- C2: enqueuing a quad whose texture differs from the currently bound
texture A first flushes the non-empty A-batch — one GPU draw submission
covering exactly the queued A-vertices — and then writes the new quad's
vertices at offset 0 of the drained arena (batch count 1, the new
texture bound). -/
theorem c2_flush_on_texture_change (now : ℕ) (M : MathImpl) (aOk tOk : Bool)
    (e : Engine) (op : QuadOp) (A : Tex)
    (hpure : PureOp e op)
    (hcur : e.currentTexture = some A)
    (hne : texOfOp e op ≠ A)
    (hpos : 0 < e.batchCount) :
    applyQuadOp now M aOk tOk e op =
      .ok { flush e with
            currentTexture := some (texOfOp e op),
            batchCount := 1,
            pendingVerts := quadVertsOf M e op } ∧
    (flush e).gpu = e.gpu ++
      [.draw { texture := A, quadCount := e.batchCount,
               indexCount := e.batchCount * 6,
               verts := e.pendingVerts, blend := e.glBlend }] := by
  have hbind : bindTextureFor e (texOfOp e op) =
      { flush e with currentTexture := some (texOfOp e op) } := by
    rw [bindTextureFor_eq_unconditional, if_pos]
    left
    rw [hcur]
    intro h
    exact hne (Option.some.inj h).symm
  have happ := applyQuadOp_pure now M aOk tOk e op hpure
  rw [hbind] at happ
  have hb0 : (flush e).batchCount = 0 := batchCount_flush_zero e
  have hp0 : (flush e).pendingVerts = [] := pendingVerts_flush_of_pos e hpos
  refine ⟨?_, ?_⟩
  · rw [happ]
    simp only [hb0, hp0, List.nil_append, Nat.zero_add]
  · rw [gpu_flush, if_pos hpos, hcur]
    rfl

theorem c2_witness :
    applyQuadOp 0 mathZero true true egNonWhiteBatch
        (QuadOp.opRect 0 0 1 1 ⟨1, 1, 1, 1⟩ 1) =
      .ok { flush egNonWhiteBatch with
            currentTexture :=
              some (texOfOp egNonWhiteBatch (QuadOp.opRect 0 0 1 1 ⟨1, 1, 1, 1⟩ 1)),
            batchCount := 1,
            pendingVerts :=
              quadVertsOf mathZero egNonWhiteBatch
                (QuadOp.opRect 0 0 1 1 ⟨1, 1, 1, 1⟩ 1) } ∧
    (flush egNonWhiteBatch).gpu = egNonWhiteBatch.gpu ++
      [.draw { texture := 7, quadCount := egNonWhiteBatch.batchCount,
               indexCount := egNonWhiteBatch.batchCount * 6,
               verts := egNonWhiteBatch.pendingVerts,
               blend := egNonWhiteBatch.glBlend }] :=
  c2_flush_on_texture_change 0 mathZero true true egNonWhiteBatch
    (QuadOp.opRect 0 0 1 1 ⟨1, 1, 1, 1⟩ 1) 7 trivial (by decide) (by decide) (by decide)


/-! ## Claim C5 — atlas shelf-packing invariant -/

/-- A UV rectangle inside the unit square with positive extent. -/
@[reducible] def uvInUnit (uv : UVRect) : Prop :=
  0 ≤ uv.u0 ∧ uv.u0 < uv.u1 ∧ uv.u1 ≤ 1 ∧ 0 ≤ uv.v0 ∧ uv.v0 < uv.v1 ∧ uv.v1 ≤ 1

/-- Two UV rectangles separated along at least one axis. -/
@[reducible] def uvDisjoint (a b : UVRect) : Prop :=
  a.u1 ≤ b.u0 ∨ b.u1 ≤ a.u0 ∨ a.v1 ≤ b.v0 ∨ b.v1 ≤ a.v0

/-- A rectangle already committed by the shelf packer: either fully
above the current row, or inside the current row strip and left of the
cursor. -/
@[reducible] def behindCursor (e : Engine) (uv : UVRect) : Prop :=
  uv.v1 ≤ (e.atlasY : ℚ) / (e.atlasSize : ℚ) ∨
  ((e.atlasY : ℚ) / (e.atlasSize : ℚ) ≤ uv.v0 ∧
   uv.v1 ≤ ((e.atlasY : ℚ) + (e.atlasRowHeight : ℚ)) / (e.atlasSize : ℚ) ∧
   uv.u1 ≤ (e.atlasX : ℚ) / (e.atlasSize : ℚ))

/-- Shelf-packing history invariant: the atlas is non-degenerate, every
placed rectangle is in the unit square and behind the cursor, and all
placed rectangles are pairwise disjoint. -/
@[reducible] def AtlasHist (e : Engine) (R : List UVRect) : Prop :=
  0 < e.atlasSize ∧
  (∀ uv ∈ R, uvInUnit uv ∧ behindCursor e uv) ∧
  R.Pairwise uvDisjoint

theorem qdiv_le_qdiv {S a b : ℚ} (hS : 0 < S) (h : a ≤ b) : a / S ≤ b / S := by
  rw [div_le_div_iff hS hS]
  nlinarith

theorem qdiv_lt_qdiv {S a b : ℚ} (hS : 0 < S) (h : a < b) : a / S < b / S := by
  rw [div_lt_div_iff hS hS]
  nlinarith

/-- Moving the cursor to a fresh row below the current one preserves the
history invariant (all committed rectangles become "above the row"). -/
theorem atlasHist_wrap (e e' : Engine) (R : List UVRect)
    (hist : AtlasHist e R)
    (hS' : e'.atlasSize = e.atlasSize)
    (hY' : e.atlasY + e.atlasRowHeight ≤ e'.atlasY) :
    AtlasHist e' R := by
  obtain ⟨hS, hmem, hpw⟩ := hist
  have hSQ : (0 : ℚ) < (e.atlasSize : ℚ) := by exact_mod_cast hS
  refine ⟨by omega, ?_, hpw⟩
  intro uv hm
  obtain ⟨hin, hbc⟩ := hmem uv hm
  refine ⟨hin, Or.inl ?_⟩
  rw [hS']
  have hYQ : (e.atlasY : ℚ) + (e.atlasRowHeight : ℚ) ≤ (e'.atlasY : ℚ) := by
    exact_mod_cast hY'
  have hRHnn : (0 : ℚ) ≤ (e.atlasRowHeight : ℚ) := by positivity
  rcases hbc with h | h
  · exact le_trans h (qdiv_le_qdiv hSQ (by linarith))
  · exact le_trans h.2.1 (qdiv_le_qdiv hSQ hYQ)

/-- Committing a fresh rectangle at the cursor preserves the history
invariant: the new rectangle is in bounds, disjoint from everything
behind the cursor, and the advanced cursor leaves it behind. -/
theorem atlasHist_place (e e' : Engine) (R : List UVRect) (uv : UVRect) (iw ih : ℕ)
    (hist : AtlasHist e R)
    (hiw : 0 < iw) (hih : 0 < ih)
    (hxw : e.atlasX + (iw + 4) ≤ e.atlasSize)
    (hyh : e.atlasY + (ih + 4) ≤ e.atlasSize)
    (hu0 : uv.u0 = ((e.atlasX + 2 : ℕ) : ℚ) / (e.atlasSize : ℚ))
    (hv0 : uv.v0 = ((e.atlasY + 2 : ℕ) : ℚ) / (e.atlasSize : ℚ))
    (hu1 : uv.u1 = ((e.atlasX + 2 + iw : ℕ) : ℚ) / (e.atlasSize : ℚ))
    (hv1 : uv.v1 = ((e.atlasY + 2 + ih : ℕ) : ℚ) / (e.atlasSize : ℚ))
    (hS' : e'.atlasSize = e.atlasSize)
    (hX' : e'.atlasX = e.atlasX + (iw + 4))
    (hY' : e'.atlasY = e.atlasY)
    (hRH' : e'.atlasRowHeight = max e.atlasRowHeight (ih + 4)) :
    AtlasHist e' (R ++ [uv]) := by
  obtain ⟨hS, hmem, hpw⟩ := hist
  have hSQ : (0 : ℚ) < (e.atlasSize : ℚ) := by exact_mod_cast hS
  have hXQ : (e.atlasX : ℚ) + ((iw : ℚ) + 4) ≤ (e.atlasSize : ℚ) := by exact_mod_cast hxw
  have hYQ : (e.atlasY : ℚ) + ((ih : ℚ) + 4) ≤ (e.atlasSize : ℚ) := by exact_mod_cast hyh
  have hiwQ : (0 : ℚ) < (iw : ℚ) := by exact_mod_cast hiw
  have hihQ : (0 : ℚ) < (ih : ℚ) := by exact_mod_cast hih
  have hXnn : (0 : ℚ) ≤ (e.atlasX : ℚ) := by positivity
  have hYnn : (0 : ℚ) ≤ (e.atlasY : ℚ) := by positivity
  have hRHnn : (0 : ℚ) ≤ (e.atlasRowHeight : ℚ) := by positivity
  have hRHQ : (e'.atlasRowHeight : ℚ) = max (e.atlasRowHeight : ℚ) ((ih : ℚ) + 4) := by
    rw [hRH', Nat.cast_max]
    push_cast
    rfl
  have hinU : uvInUnit uv := by
    refine ⟨?_, ?_, ?_, ?_, ?_, ?_⟩
    · rw [hu0]; positivity
    · rw [hu0, hu1]; exact qdiv_lt_qdiv hSQ (by push_cast; linarith)
    · rw [hu1, div_le_one hSQ]; push_cast; linarith
    · rw [hv0]; positivity
    · rw [hv0, hv1]; exact qdiv_lt_qdiv hSQ (by push_cast; linarith)
    · rw [hv1, div_le_one hSQ]; push_cast; linarith
  have hbcNew : behindCursor e' uv := by
    right
    rw [hS', hY', hRHQ, hX', hu1, hv0, hv1]
    refine ⟨qdiv_le_qdiv hSQ (by push_cast; linarith), ?_, ?_⟩
    · apply qdiv_le_qdiv hSQ
      have hmx : (ih : ℚ) + 4 ≤ max (e.atlasRowHeight : ℚ) ((ih : ℚ) + 4) :=
        le_max_right _ _
      push_cast
      linarith
    · exact qdiv_le_qdiv hSQ (by push_cast; linarith)
  have hbcOld : ∀ m ∈ R, behindCursor e' m := by
    intro m hm
    rcases (hmem m hm).2 with h | h
    · left
      rw [hS', hY']
      exact h
    · right
      rw [hS', hY', hRHQ, hX']
      refine ⟨h.1, le_trans h.2.1 (qdiv_le_qdiv hSQ ?_), le_trans h.2.2 (qdiv_le_qdiv hSQ ?_)⟩
      · exact add_le_add_left (le_max_left _ _) _
      · push_cast; linarith
  refine ⟨by omega, ?_, ?_⟩
  · intro m hm
    rcases List.mem_append.mp hm with h | h
    · exact ⟨(hmem m h).1, hbcOld m h⟩
    · rw [List.mem_singleton.mp h]
      exact ⟨hinU, hbcNew⟩
  · refine List.pairwise_append.mpr ⟨hpw, List.pairwise_singleton _ _, ?_⟩
    intro a ha b hb
    rw [List.mem_singleton.mp hb]
    rcases (hmem a ha).2 with h | h
    · refine Or.inr (Or.inr (Or.inl ?_))
      rw [hv0]
      exact le_trans h (qdiv_le_qdiv hSQ (by push_cast; linarith))
    · refine Or.inl ?_
      rw [hu0]
      exact le_trans h.2.2 (qdiv_le_qdiv hSQ (by push_cast; linarith))


theorem addToAtlas_atlasSize (aOk : Bool) (e : Engine) (id : ℕ) :
    (addToAtlas aOk e id).2.atlasSize = e.atlasSize := by
  unfold addToAtlas
  dsimp only
  (repeat' split) <;> rfl

/-- One `_addToAtlas` call preserves the shelf-packing history invariant
and leaves any returned rectangle committed, provided the padded image
width fits the atlas width (true at the only call site: images are
atlased only up to 512px and the atlas is at least 1024px on any GPU
exposing ≥1024 texture units). -/
theorem addToAtlas_hist (aOk : Bool) (e : Engine) (id : ℕ) (R : List UVRect)
    (hist : AtlasHist e R)
    (hw : (getImg e id).width + 2 * atlasPadding ≤ e.atlasSize) :
    AtlasHist (addToAtlas aOk e id).2 (R ++ (addToAtlas aOk e id).1.toList) := by
  simp only [atlasPadding] at hw
  unfold addToAtlas
  simp only [atlasPadding]
  split
  · simpa using hist
  · next hdeg =>
    push_neg at hdeg
    have hiw : 0 < (getImg e id).width := Nat.pos_of_ne_zero hdeg.1
    have hih : 0 < (getImg e id).height := Nat.pos_of_ne_zero hdeg.2
    by_cases hwrap : e.atlasSize < e.atlasX + ((getImg e id).width + 2 * 2)
    · rw [if_pos hwrap]
      have histW : AtlasHist
          { e with atlasX := 0, atlasY := e.atlasY + e.atlasRowHeight,
                   atlasRowHeight := 0 } R :=
        atlasHist_wrap e _ R hist rfl (Nat.le.refl)
      split
      · simpa using histW
      · next hfull =>
        dsimp only at hfull
        split
        · next haOk =>
          simp only [Option.toList]
          refine atlasHist_place _ _ R _ (getImg e id).width (getImg e id).height histW
            hiw hih ?_ ?_ rfl rfl rfl rfl rfl rfl rfl rfl
          · show 0 + ((getImg e id).width + 4) ≤ e.atlasSize
            omega
          · show (e.atlasY + e.atlasRowHeight) + ((getImg e id).height + 4) ≤ e.atlasSize
            omega
        · simpa using histW
    · rw [if_neg hwrap]
      split
      · simpa using hist
      · next hfull =>
        split
        · next haOk =>
          simp only [Option.toList]
          refine atlasHist_place _ _ R _ (getImg e id).width (getImg e id).height hist
            hiw hih ?_ ?_ rfl rfl rfl rfl rfl rfl rfl rfl
          · show e.atlasX + ((getImg e id).width + 4) ≤ e.atlasSize
            omega
          · show e.atlasY + ((getImg e id).height + 4) ≤ e.atlasSize
            omega
        · simpa using hist

/-- One step of a placement sequence: run `_addToAtlas`, collecting the
returned rectangle (if any) into the history. -/
def atlasStep (acc : List UVRect × Engine) (p : Bool × ℕ) : List UVRect × Engine :=
  let r := addToAtlas p.1 acc.2 p.2
  (acc.1 ++ r.1.toList, r.2)

/-- A whole sequence of `_addToAtlas` placements. -/
def runAtlasSeq (ops : List (Bool × ℕ)) (acc : List UVRect × Engine) :
    List UVRect × Engine :=
  ops.foldl atlasStep acc

theorem runAtlasSeq_hist (ops : List (Bool × ℕ)) :
    ∀ (e : Engine) (R : List UVRect), AtlasHist e R →
      (∀ p ∈ ops, (getImg e p.2).width + 2 * atlasPadding ≤ e.atlasSize) →
      AtlasHist (runAtlasSeq ops (R, e)).2 (runAtlasSeq ops (R, e)).1 := by
  induction ops with
  | nil =>
    intro e R h _
    exact h
  | cons p rest ih =>
    intro e R h hbound
    have hstep := addToAtlas_hist p.1 e p.2 R h (hbound p (List.mem_cons_self p rest))
    have himg : (addToAtlas p.1 e p.2).2.images = e.images :=
      (addToAtlas_preserves p.1 e p.2).2.2.1
    have hsz : (addToAtlas p.1 e p.2).2.atlasSize = e.atlasSize :=
      addToAtlas_atlasSize p.1 e p.2
    have hstep' : runAtlasSeq (p :: rest) (R, e) =
        runAtlasSeq rest (R ++ (addToAtlas p.1 e p.2).1.toList, (addToAtlas p.1 e p.2).2) := by
      rfl
    rw [hstep']
    apply ih
    · exact hstep
    · intro q hq
      have : getImg (addToAtlas p.1 e p.2).2 q.2 = getImg e q.2 := by
        unfold getImg
        rw [himg]
      rw [this, hsz]
      exact hbound q (List.mem_cons_of_mem p hq)


theorem foldl_atlasCache {α : Type} (f : Engine → α → Engine)
    (hf : ∀ e p, (f e p).atlasCache = e.atlasCache) :
    ∀ (l : List α) (e : Engine), (l.foldl f e).atlasCache = e.atlasCache := by
  intro l
  induction l with
  | nil =>
    intro e
    rfl
  | cons p rest ih =>
    intro e
    rw [List.foldl_cons, ih, hf]

/-- LRU eviction never touches the atlas cache. -/
theorem cleanup_atlasCache (e : Engine) : (cleanupTextures e).atlasCache = e.atlasCache := by
  unfold cleanupTextures
  dsimp only
  apply foldl_atlasCache
  intro e' p
  dsimp only
  (repeat' split) <;> rfl

theorem updateInAtlas_atlasCache (e : Engine) (id : ℕ) :
    (updateInAtlas e id).atlasCache = e.atlasCache := by
  unfold updateInAtlas
  (repeat' split) <;> rfl

/-- `_addToAtlas` either leaves the atlas cache unchanged (failure) or
appends exactly the returned rectangle under the requested image. -/
theorem addToAtlas_cache_eq (aOk : Bool) (e : Engine) (id : ℕ) :
    (addToAtlas aOk e id).2.atlasCache =
      match (addToAtlas aOk e id).1 with
      | some uv => mapSet e.atlasCache id uv
      | none => e.atlasCache := by
  unfold addToAtlas
  dsimp only
  (repeat' split) <;> first | rfl | simp_all

theorem mapGet_append_some {β : Type} (m l : List (ℕ × β)) (k : ℕ) (v : β)
    (h : mapGet m k = some v) : mapGet (m ++ l) k = some v := by
  unfold mapGet at *
  cases hf : m.find? (fun p => p.1 = k) with
  | none =>
    rw [hf] at h
    simp at h
  | some q =>
    rw [hf] at h
    rw [List.find?_append, hf]
    simpa using h

theorem mapGet_mapSet_fresh {β : Type} (m : List (ℕ × β)) (id k : ℕ) (u v : β)
    (hnone : mapGet m id = none) (h : mapGet m k = some v) :
    mapGet (mapSet m id u) k = some v := by
  unfold mapSet
  rw [if_neg]
  · exact mapGet_append_some m _ k v h
  · unfold mapGet at hnone
    simp only [Option.map_eq_none'] at hnone
    rw [hnone]
    simp

theorem dedicated_atlasCache (now : ℕ) (tOk : Bool) (e : Engine) (i : ℕ)
    (r : GetTexRet × Engine) (h : getTextureDedicated now tOk e i = .ok r) :
    r.2.atlasCache = e.atlasCache := by
  unfold getTextureDedicated at h
  dsimp only at h
  (repeat' split at h) <;>
    first
      | (exact Except.noConfusion h)
      | (injection h with h2
         subst h2
         simp [getTexFinish, setImg, cleanup_atlasCache])

/-- Resolution never drops or changes an existing atlas entry. -/
theorem getTexture_atlasCache_mono (now : ℕ) (aOk tOk : Bool) (e : Engine)
    (x : Option ImgRef) (r : GetTexRet × Engine)
    (h : getTexture now aOk tOk e x = .ok r) :
    ∀ k uv, mapGet e.atlasCache k = some uv → mapGet r.2.atlasCache k = some uv := by
  intro k uv hk
  cases x with
  | none =>
    unfold getTexture at h
    injection h with h2
    subst h2
    exact hk
  | some ref =>
    cases ref with
    | rawTex t =>
      unfold getTexture at h
      injection h with h2
      subst h2
      exact hk
    | image id =>
      unfold getTexture at h
      dsimp only at h
      (repeat' split at h) <;>
        first
          | (exact Except.noConfusion h)
          | (injection h with h2
             subst h2
             exact hk)
          | (injection h with h2
             subst h2
             simp only [setImg, updateInAtlas_atlasCache]
             exact hk)
          | (rename_i uv2 e2 heq
             injection h with h2
             subst h2
             have hc := addToAtlas_cache_eq aOk e id
             rw [heq] at hc
             dsimp only at hc
             simp only [setImg]
             rw [hc]
             exact mapGet_mapSet_fresh _ _ _ _ _ (by assumption) hk)
          | (rename_i e2 heq
             have hc := addToAtlas_cache_eq aOk e id
             rw [heq] at hc
             dsimp only at hc
             rw [dedicated_atlasCache now tOk e2 id r h, hc]
             exact hk)
          | (rw [dedicated_atlasCache now tOk e id r h]
             exact hk)


/-- C5: (a) any sequence of `_addToAtlas` placements starting from a
state satisfying the shelf-packing history invariant (in particular a
fresh engine, whose history is empty) keeps the invariant, so all
returned UV rectangles are pairwise disjoint and inside the unit square
(under the width-fits hypothesis true at the only call site, which
atlases only images up to 512px); (b) `getTexture` never drops or
changes an existing atlas entry; (c) LRU eviction (`_cleanupTextures`)
never touches the atlas cache; and (d) a dirty update (`_updateInAtlas`)
rewrites at exactly the committed rectangle's pixel corner. -/
theorem c5_atlas_invariant :
    (∀ (ops : List (Bool × ℕ)) (e : Engine) (R : List UVRect),
      AtlasHist e R →
      (∀ p ∈ ops, (getImg e p.2).width + 2 * atlasPadding ≤ e.atlasSize) →
      (∀ uv ∈ (runAtlasSeq ops (R, e)).1, uvInUnit uv) ∧
      (runAtlasSeq ops (R, e)).1.Pairwise uvDisjoint) ∧
    (∀ (now : ℕ) (aOk tOk : Bool) (e : Engine) (x : Option ImgRef)
        (r : GetTexRet × Engine),
      getTexture now aOk tOk e x = .ok r →
      ∀ k uv, mapGet e.atlasCache k = some uv → mapGet r.2.atlasCache k = some uv) ∧
    (∀ e : Engine, (cleanupTextures e).atlasCache = e.atlasCache) ∧
    (∀ (e : Engine) (k x y : ℕ) (uv : UVRect),
      mapGet e.atlasCache k = some uv →
      0 < e.atlasSize →
      uv.u0 = (x : ℚ) / (e.atlasSize : ℚ) →
      uv.v0 = (y : ℚ) / (e.atlasSize : ℚ) →
      updateInAtlas e k =
        { e with atlasWrites := e.atlasWrites ++ [((x : ℤ), (y : ℤ), k)] }) := by
  refine ⟨?_, getTexture_atlasCache_mono, cleanup_atlasCache, ?_⟩
  · intro ops e R h hb
    have hrun := runAtlasSeq_hist ops e R h hb
    exact ⟨fun uv hm => (hrun.2.1 uv hm).1, hrun.2.2⟩
  · intro e k x y uv hk hS hx hy
    unfold updateInAtlas
    rw [hk]
    dsimp only
    have hSQ : (0 : ℚ) < (e.atlasSize : ℚ) := by exact_mod_cast hS
    have hx' : uv.u0 * (e.atlasSize : ℚ) = (x : ℚ) := by
      rw [hx]
      field_simp
    have hy' : uv.v0 * (e.atlasSize : ℚ) = (y : ℚ) := by
      rw [hy]
      field_simp
    rw [hx', hy', round_natCast, round_natCast]

def egImgs : List (ℕ × ImageObj) :=
  [(0, ⟨32, 32, false, none, false⟩), (1, ⟨16, 8, false, none, false⟩)]

def egAtlasEngine : Engine := initEngine 800 600 4096 egImgs []

def egAtlasPlaced : Engine := (addToAtlas true egAtlasEngine 0).2

def egUV : UVRect := ⟨2/4096, 2/4096, 34/4096, 34/4096⟩

theorem c5_witness :
    ((∀ uv ∈ (runAtlasSeq [(true, 0), (true, 1)] ([], egAtlasEngine)).1, uvInUnit uv) ∧
      (runAtlasSeq [(true, 0), (true, 1)] ([], egAtlasEngine)).1.Pairwise uvDisjoint) ∧
    mapGet (GetTexRet.tex 5, egAtlasPlaced).2.atlasCache 0 = some egUV ∧
    (cleanupTextures egAtlasEngine).atlasCache = egAtlasEngine.atlasCache ∧
    updateInAtlas egAtlasPlaced 0 =
      { egAtlasPlaced with
        atlasWrites := egAtlasPlaced.atlasWrites ++ [((2 : ℤ), (2 : ℤ), 0)] } := by
  have hcache : mapGet egAtlasPlaced.atlasCache 0 = some egUV := by
    show mapGet (addToAtlas true egAtlasEngine 0).2.atlasCache 0 = some egUV
    norm_num [egAtlasEngine, egImgs, egUV, addToAtlas, initEngine, getImg, mapGet,
      mapSet, atlasPadding, List.find?]
  have hu0 : egUV.u0 = ((2 : ℕ) : ℚ) / (egAtlasPlaced.atlasSize : ℚ) := by
    have hsz : egAtlasPlaced.atlasSize = 4096 := by decide
    rw [hsz]
    norm_num [egUV]
  have hv0 : egUV.v0 = ((2 : ℕ) : ℚ) / (egAtlasPlaced.atlasSize : ℚ) := by
    have hsz : egAtlasPlaced.atlasSize = 4096 := by decide
    rw [hsz]
    norm_num [egUV]
  refine ⟨c5_atlas_invariant.1 [(true, 0), (true, 1)] egAtlasEngine []
      ⟨by decide, by simp, List.Pairwise.nil⟩ (by decide),
    c5_atlas_invariant.2.1 0 true true egAtlasPlaced (some (.rawTex 5))
      (GetTexRet.tex 5, egAtlasPlaced) rfl 0 egUV hcache,
    c5_atlas_invariant.2.2.1 egAtlasEngine,
    c5_atlas_invariant.2.2.2 egAtlasPlaced 0 2 2 egUV hcache (by decide)
      hu0 hv0⟩


/-! ## Claim C6 — LRU eviction of the dedicated-texture cache -/

theorem find?_mapDelete_self {β : Type} (m : List (ℕ × β)) (k : ℕ) :
    (mapDelete m k).find? (fun p => p.1 = k) = none := by
  induction m with
  | nil => rfl
  | cons p rest ih =>
    unfold mapDelete at ih ⊢
    rw [List.filter_cons]
    by_cases h : p.1 = k
    · simpa [h] using ih
    · simpa [List.find?_cons, h] using ih

theorem mapGet_mapDelete_self {β : Type} (m : List (ℕ × β)) (k : ℕ) :
    mapGet (mapDelete m k) k = none := by
  unfold mapGet
  rw [find?_mapDelete_self]
  rfl

theorem mapGet_mapDelete_ne {β : Type} (m : List (ℕ × β)) (k k' : ℕ) (h : k ≠ k') :
    mapGet (mapDelete m k') k = mapGet m k := by
  have h' : ¬(k' = k) := fun he => h he.symm
  induction m with
  | nil => rfl
  | cons p rest ih =>
    unfold mapDelete mapGet at ih ⊢
    rw [List.filter_cons]
    by_cases hp : p.1 = k'
    · have hpk : ¬(p.1 = k) := by omega
      simpa [hp, h', List.find?_cons, hpk] using ih
    · by_cases hk : p.1 = k
      · simp [hp, hk, h, List.find?_cons]
      · simpa [hp, hk, h, List.find?_cons] using ih

/-- The per-victim eviction step of `_cleanupTextures`. -/
def cleanupStep (e : Engine) (p : ℕ × ℕ) : Engine :=
  match mapGet e.textureCache p.1 with
  | some t =>
    if t ≠ e.whiteTexture then
      { e with
        freed := e.freed ++ [t],
        textureCache := mapDelete e.textureCache p.1,
        textureUsage := mapDelete e.textureUsage p.1 }
    else e
  | none => e

theorem cleanupTextures_eq_foldl (e : Engine) :
    cleanupTextures e =
      ((List.insertionSort (fun a b => a.2 ≤ b.2) e.textureUsage).take
        (evictCount e.maxTextureCacheSize)).foldl cleanupStep e := by
  rfl

/-- What one victim contributes to the freed list, in terms of the
pre-eviction cache. -/
def evictedTex (e : Engine) (p : ℕ × ℕ) : Option Tex :=
  match mapGet e.textureCache p.1 with
  | some t => if t ≠ e.whiteTexture then some t else none
  | none => none

theorem cleanup_foldl_spec (l : List (ℕ × ℕ)) :
    ∀ e : Engine, (l.map Prod.fst).Nodup →
      (List.foldl cleanupStep e l).freed = e.freed ++ l.filterMap (evictedTex e) ∧
      (∀ k, k ∉ l.map Prod.fst →
        mapGet (List.foldl cleanupStep e l).textureCache k = mapGet e.textureCache k ∧
        mapGet (List.foldl cleanupStep e l).textureUsage k = mapGet e.textureUsage k) ∧
      (∀ p ∈ l, ∀ t, mapGet e.textureCache p.1 = some t → t ≠ e.whiteTexture →
        mapGet (List.foldl cleanupStep e l).textureCache p.1 = none ∧
        mapGet (List.foldl cleanupStep e l).textureUsage p.1 = none) ∧
      (List.foldl cleanupStep e l).images = e.images ∧
      (List.foldl cleanupStep e l).whiteTexture = e.whiteTexture := by
  induction l with
  | nil =>
    intro e _
    refine ⟨by simp, fun k _ => ⟨rfl, rfl⟩, fun p hp => absurd hp (List.not_mem_nil p), rfl, rfl⟩
  | cons p l ih =>
    intro e hnd
    rw [List.map_cons, List.nodup_cons] at hnd
    obtain ⟨hp1, hnd'⟩ := hnd
    have hstep :
        (cleanupStep e p).whiteTexture = e.whiteTexture ∧
        (cleanupStep e p).images = e.images ∧
        (cleanupStep e p).freed = e.freed ++ (evictedTex e p).toList ∧
        (∀ k, k ≠ p.1 →
          mapGet (cleanupStep e p).textureCache k = mapGet e.textureCache k ∧
          mapGet (cleanupStep e p).textureUsage k = mapGet e.textureUsage k) ∧
        (∀ t, mapGet e.textureCache p.1 = some t → t ≠ e.whiteTexture →
          mapGet (cleanupStep e p).textureCache p.1 = none ∧
          mapGet (cleanupStep e p).textureUsage p.1 = none) := by
      unfold cleanupStep evictedTex
      cases hc : mapGet e.textureCache p.1 with
      | none =>
        dsimp only
        refine ⟨rfl, rfl, by simp, fun k _ => ⟨rfl, rfl⟩, ?_⟩
        intro t ht hw
        exact Option.noConfusion ht
      | some t =>
        dsimp only
        by_cases hw : t ≠ e.whiteTexture
        · refine ⟨by simp [hw], by simp [hw], by simp [hw, Option.toList], ?_, ?_⟩
          · intro k hk
            simp only [if_pos hw]
            constructor
            · show mapGet (mapDelete e.textureCache p.1) k = mapGet e.textureCache k
              exact mapGet_mapDelete_ne _ _ _ hk
            · show mapGet (mapDelete e.textureUsage p.1) k = mapGet e.textureUsage k
              exact mapGet_mapDelete_ne _ _ _ hk
          · intro t' ht' hw'
            simp only [if_pos hw]
            exact ⟨mapGet_mapDelete_self _ _, mapGet_mapDelete_self _ _⟩
        · push_neg at hw
          refine ⟨by simp [hw], by simp [hw], by simp [hw], fun k _ => by simp [hw], ?_⟩
          intro t' ht' hw'
          injection ht' with ht2
          exact absurd (ht2 ▸ hw) hw'
    obtain ⟨hsw, hsi, hsf, hspres, hskill⟩ := hstep
    have ih' := ih (cleanupStep e p) hnd'
    have hsame : ∀ q ∈ l, mapGet (cleanupStep e p).textureCache q.1 = mapGet e.textureCache q.1 := by
      intro q hq
      have : q.1 ≠ p.1 := by
        intro hqe
        exact hp1 (hqe ▸ List.mem_map_of_mem Prod.fst hq)
      exact (hspres q.1 this).1
    rw [List.foldl_cons]
    refine ⟨?_, ?_, ?_, ?_, ?_⟩
    · rw [ih'.1, hsf]
      have hfm : l.filterMap (evictedTex (cleanupStep e p)) = l.filterMap (evictedTex e) := by
        apply List.filterMap_congr
        intro q hq
        unfold evictedTex
        rw [hsame q hq, hsw]
      rw [hfm, List.filterMap_cons]
      cases hev : evictedTex e p <;> simp [hev, Option.toList]
    · intro k hk
      rw [List.map_cons, List.mem_cons] at hk
      push_neg at hk
      have h1 := (ih'.2.1 k (by simpa using hk.2))
      have h2 := hspres k hk.1
      exact ⟨h1.1.trans h2.1, h1.2.trans h2.2⟩
    · intro q hq t ht hw
      rw [List.mem_cons] at hq
      rcases hq with hq | hq
      · subst hq
        have hkill := hskill t ht hw
        have hq1 : q.1 ∉ l.map Prod.fst := hp1
        have h1 := ih'.2.1 q.1 hq1
        exact ⟨h1.1.trans hkill.1, h1.2.trans hkill.2⟩
      · have hc' : mapGet (cleanupStep e p).textureCache q.1 = some t :=
          (hsame q hq).trans ht
        have hw' : t ≠ (cleanupStep e p).whiteTexture := by
          rw [hsw]
          exact hw
        exact ih'.2.2.1 q hq t hc' hw'
    · rw [ih'.2.2.2.1, hsi]
    · rw [ih'.2.2.2.2, hsw]


theorem victims_nodup (e : Engine) (h : (e.textureUsage.map Prod.fst).Nodup) :
    (((List.insertionSort (fun a b : ℕ × ℕ => a.2 ≤ b.2) e.textureUsage).take
      (evictCount e.maxTextureCacheSize)).map Prod.fst).Nodup := by
  have hperm : (List.insertionSort (fun a b : ℕ × ℕ => a.2 ≤ b.2) e.textureUsage).Perm
      e.textureUsage := List.perm_insertionSort _ _
  have hmap : ((List.insertionSort (fun a b : ℕ × ℕ => a.2 ≤ b.2) e.textureUsage).map
      Prod.fst).Nodup := ((hperm.map Prod.fst).nodup_iff).mpr h
  exact hmap.sublist ((List.take_sublist _ _).map Prod.fst)

theorem getTextureDedicated_miss_full (now : ℕ) (e : Engine) (id : ℕ)
    (hmiss : mapGet e.textureCache id = none)
    (hfull : e.maxTextureCacheSize ≤ e.textureCache.length) :
    getTextureDedicated now true e id =
      .ok (getTexFinish now
        { cleanupTextures e with
          nextTex := (cleanupTextures e).nextTex + 1,
          textureCache := mapSet (cleanupTextures e).textureCache id
            (cleanupTextures e).nextTex }
        id (cleanupTextures e).nextTex (getImg e id)) := by
  unfold getTextureDedicated
  dsimp only
  rw [hmiss]
  dsimp only
  rw [if_pos hfull]
  rfl

/-- C6 (amended): when a cache miss occurs at the 200-entry bound, the
engine sorts the usage map ascending by last-access timestamp (a stable
sort, a permutation of the map), evicts the first ceil(200·0.2) = 40
entries — releasing each cached non-white handle in ascending timestamp
order, i.e. least-recently-used first, and deleting them from both maps
while every other key is preserved — and then allocates a fresh texture
for the new image.  However, eviction does not clear the evicted images'
memoized `_glTextureInfo` (their image objects are untouched), and the
memo short-circuit means re-resolving an evicted image with a clean memo
returns the stale info (carrying the released handle) with the engine
unchanged — it does NOT re-allocate, contrary to the claim. -/
theorem c6_lru_eviction :
    (∀ e : Engine,
      (List.insertionSort (fun a b : ℕ × ℕ => a.2 ≤ b.2) e.textureUsage).Sorted
        (fun a b => a.2 ≤ b.2) ∧
      (List.insertionSort (fun a b : ℕ × ℕ => a.2 ≤ b.2) e.textureUsage).Perm
        e.textureUsage) ∧
    evictCount 200 = 40 ∧
    (∀ e : Engine, (e.textureUsage.map Prod.fst).Nodup →
      (cleanupTextures e).freed = e.freed ++
        ((List.insertionSort (fun a b : ℕ × ℕ => a.2 ≤ b.2) e.textureUsage).take
          (evictCount e.maxTextureCacheSize)).filterMap (evictedTex e) ∧
      (∀ p ∈ (List.insertionSort (fun a b : ℕ × ℕ => a.2 ≤ b.2) e.textureUsage).take
          (evictCount e.maxTextureCacheSize), ∀ t, mapGet e.textureCache p.1 = some t →
          t ≠ e.whiteTexture →
          mapGet (cleanupTextures e).textureCache p.1 = none ∧
          mapGet (cleanupTextures e).textureUsage p.1 = none) ∧
      (∀ k, k ∉ ((List.insertionSort (fun a b : ℕ × ℕ => a.2 ≤ b.2) e.textureUsage).take
          (evictCount e.maxTextureCacheSize)).map Prod.fst →
          mapGet (cleanupTextures e).textureCache k = mapGet e.textureCache k ∧
          mapGet (cleanupTextures e).textureUsage k = mapGet e.textureUsage k) ∧
      (cleanupTextures e).images = e.images) ∧
    (∀ (now : ℕ) (e : Engine) (id : ℕ),
      mapGet e.textureCache id = none →
      e.maxTextureCacheSize ≤ e.textureCache.length →
      getTextureDedicated now true e id = .ok (getTexFinish now
        { cleanupTextures e with
          nextTex := (cleanupTextures e).nextTex + 1,
          textureCache := mapSet (cleanupTextures e).textureCache id
            (cleanupTextures e).nextTex }
        id (cleanupTextures e).nextTex (getImg e id))) ∧
    (∀ (now : ℕ) (aOk tOk : Bool) (e : Engine) (id : ℕ) (memo : TexInfo),
      (getImg e id).glTextureInfo = some memo →
      (getImg e id).needsUpdate = false →
      getTexture now aOk tOk e (some (.image id)) = .ok (.txinfo memo, e)) := by
  refine ⟨?_, by norm_num [evictCount], ?_, getTextureDedicated_miss_full, ?_⟩
  · intro e
    haveI hT : IsTotal (ℕ × ℕ) (fun a b : ℕ × ℕ => a.2 ≤ b.2) :=
      ⟨fun a b => Nat.le_total a.2 b.2⟩
    haveI hTr : IsTrans (ℕ × ℕ) (fun a b : ℕ × ℕ => a.2 ≤ b.2) :=
      ⟨fun a b c hab hbc => Nat.le_trans hab hbc⟩
    exact ⟨List.sorted_insertionSort _ _, List.perm_insertionSort _ _⟩
  · intro e hnd
    have hv := victims_nodup e hnd
    have hs := cleanup_foldl_spec _ e hv
    rw [cleanupTextures_eq_foldl]
    exact ⟨hs.1, fun p hp t ht hw => hs.2.2.1 p hp t ht hw,
      fun k hk => hs.2.1 k hk, hs.2.2.2.1⟩
  · intro now aOk tOk e id memo h1 h2
    have hres := getTexture_pure now aOk tOk e (.image id)
      (by exact ⟨by rw [h1]; rfl, h2⟩)
    rw [hres]
    simp [pureRetI, h1]


/-- A 600×600 client image (too large for the atlas); the first 200 carry
the memo produced by their initial dedicated-texture resolution. -/
def c6Img (i : ℕ) : ImageObj :=
  { width := 600, height := 600, needsUpdate := false,
    glTextureInfo := if i < 200 then some ⟨(i + 2 : ℕ), none, 600, 600⟩ else none,
    disableAutoAtlas := false }

/-- The engine state after resolving images 0,…,199 in order at times
0,…,199 on a fresh engine: the dedicated cache is at its 200-entry
bound, handles 2,…,201 allocated in order (`nextTex` started at 2), each
image memoized, usage timestamps ascending. -/
def eC6 : Engine :=
  { initEngine 800 600 4096 ((List.range 201).map (fun i => (i, c6Img i))) [] with
    textureCache := (List.range 200).map (fun i => (i, i + 2)),
    textureUsage := (List.range 200).map (fun i => (i, i)),
    nextTex := 202 }

/-- `eC6` after eviction: the 40 least-recently-used entries (images
0,…,39) are gone, their handles 2,…,41 released in timestamp order. -/
def eC6clean : Engine :=
  { eC6 with
    freed := (List.range 40).map (fun i => i + 2),
    textureCache := (List.range 160).map (fun i => (i + 40, i + 42)),
    textureUsage := (List.range 160).map (fun i => (i + 40, i + 40)) }

set_option maxRecDepth 100000 in
theorem eC6_cleanup : cleanupTextures eC6 = eC6clean := by
  have hec : evictCount eC6.maxTextureCacheSize = 40 := by
    show evictCount 200 = 40
    norm_num [evictCount]
  rw [cleanupTextures_eq_foldl, hec]
  decide

/-- The engine after image 200's resolution triggered the eviction and a
fresh handle 202 was allocated for it. -/
def eC6post : Engine :=
  { eC6clean with
    nextTex := 203,
    textureCache := mapSet eC6clean.textureCache 200 202,
    textureUsage := mapSet eC6clean.textureUsage 200 200,
    images := mapSet eC6.images 200 ⟨600, 600, false, some ⟨202, none, 600, 600⟩, false⟩ }

set_option maxRecDepth 100000 in
/-- Counterexample to C6 as stated.  Resolving the 201st image at the
200-entry bound does evict the 40 least-recently-used entries (handle 2,
image 0's, released first) and allocates handle 202 for the new image —
but re-resolving the evicted image 0 afterwards does *not* allocate a
fresh texture: its stale `_glTextureInfo` memo short-circuits
`getTexture`, returning the already-released handle 2 with the engine
unchanged. -/
theorem c6_counterexample :
    getTexture 200 true true eC6 (some (.image 200)) =
      .ok (.txinfo ⟨202, none, 600, 600⟩, eC6post) ∧
    eC6post.freed = (List.range 40).map (fun i => i + 2) ∧
    mapGet eC6post.textureCache 0 = none ∧
    2 ∈ eC6post.freed ∧
    getTexture 201 true true eC6post (some (.image 0)) =
      .ok (.txinfo ⟨2, none, 600, 600⟩, eC6post) := by
  refine ⟨?_, by decide, by decide, by decide, ?_⟩
  · have himg : getImg eC6 200 = ⟨600, 600, false, none, false⟩ := by decide
    have hatlas : mapGet eC6.atlasCache 200 = (none : Option UVRect) := by decide
    unfold getTexture
    dsimp only
    rw [himg]
    dsimp only
    rw [hatlas]
    dsimp only
    rw [if_neg (by decide)]
    rw [getTextureDedicated_miss_full 200 eC6 200 (by decide) (by decide), eC6_cleanup]
    exact congrArg Except.ok (by decide)
  · have hmemo : (getImg eC6post 0).glTextureInfo = some ⟨2, none, 600, 600⟩ := by decide
    have hclean2 : (getImg eC6post 0).needsUpdate = false := by decide
    have hres := getTexture_pure 201 true true eC6post (.image 0)
      (by exact ⟨by rw [hmemo]; rfl, hclean2⟩)
    rw [hres]
    simp [pureRetI, hmemo]


set_option maxRecDepth 100000 in
theorem c6_witness :
    (List.insertionSort (fun a b : ℕ × ℕ => a.2 ≤ b.2) eC6.textureUsage).Sorted
      (fun a b => a.2 ≤ b.2) ∧
    evictCount 200 = 40 ∧
    (cleanupTextures eC6).freed = eC6.freed ++
      ((List.insertionSort (fun a b : ℕ × ℕ => a.2 ≤ b.2) eC6.textureUsage).take
        (evictCount eC6.maxTextureCacheSize)).filterMap (evictedTex eC6) ∧
    (cleanupTextures eC6).images = eC6.images ∧
    getTextureDedicated 200 true eC6 200 = .ok (getTexFinish 200
      { cleanupTextures eC6 with
        nextTex := (cleanupTextures eC6).nextTex + 1,
        textureCache := mapSet (cleanupTextures eC6).textureCache 200
          (cleanupTextures eC6).nextTex }
      200 (cleanupTextures eC6).nextTex (getImg eC6 200)) ∧
    getTexture 202 true true eC6post (some (.image 41)) =
      .ok (.txinfo ⟨43, none, 600, 600⟩, eC6post) := by
  have hnd : (eC6.textureUsage.map Prod.fst).Nodup := by decide
  refine ⟨(c6_lru_eviction.1 eC6).1,
    c6_lru_eviction.2.1,
    (c6_lru_eviction.2.2.1 eC6 hnd).1,
    (c6_lru_eviction.2.2.1 eC6 hnd).2.2.2,
    c6_lru_eviction.2.2.2.1 200 eC6 200 (by decide) (by decide),
    c6_lru_eviction.2.2.2.2 202 true true eC6post 41 ⟨43, none, 600, 600⟩
      (by decide) (by decide)⟩

end Blaze2d
